import Mathlib

/-!
# pull-down-card: a shallow embedding of `src/pull-down-card.js`

The class `PullDownCard` is modelled as a record of its instance fields plus the
part of the shadow DOM and of the event loop that the methods read and write.
Every method is a pure function on that record; every `await` of `_buildCards`
is a suspension point that an explicit event resumes, so that host calls
(`setConfig`, `set hass`) and pointer events interleave with a build freely.

Modelling conventions
* pixel coordinates and the measured drawer height are integers (`Int`);
* a division of two such numbers is a `JSNum`, with the JavaScript results of a
  division by zero;
* the two validated configuration fields are arbitrary JavaScript values
  (`JSVal`); the optional settings are typed, `none` standing for an absent or
  `null` field (the two cases `??` replaces by the default);
* a panel's `hass` assignment stores the value and cannot throw; the `ha-card`
  element of an error card has no `hass` property;
* an inline style holds the value the code assigns to it.
-/

namespace PullDownCard

/-! ## JavaScript values -/

/-- A JavaScript value that is not an array. Objects are opaque and told apart by an id. -/
inductive Atom where
  | undefined
  | null
  | bool (b : Bool)
  | num (n : Int)
  | nan
  | str (s : String)
  | obj (id : Nat)
  deriving DecidableEq, Repr

/-- A JavaScript value: an atom or an array of atoms. -/
inductive JSVal where
  | atom (a : Atom)
  | array (items : List Atom)
  deriving DecidableEq, Repr

/-- JavaScript truthiness of an atom (`!x` is its negation). -/
def Atom.truthy : Atom → Bool
  | .undefined => false
  | .null => false
  | .bool b => b
  | .num n => n != 0
  | .nan => false
  | .str s => s != ""
  | .obj _ => true

/-- JavaScript truthiness: every array, the empty one included, is truthy. -/
def JSVal.truthy : JSVal → Bool
  | .atom a => a.truthy
  | .array _ => true

/-- The test `Array.isArray(v)`. -/
def JSVal.isArray : JSVal → Bool
  | .atom _ => false
  | .array _ => true

/-- The value `undefined`: what reading an absent property gives. -/
def JSVal.undef : JSVal := .atom .undefined

/-- The value `null`. -/
def JSVal.nul : JSVal := .atom .null

/-- Result of a JavaScript number division. -/
inductive JSNum where
  | fin (q : ℚ)
  | nan
  | posInf
  | negInf
  deriving DecidableEq

/-- JavaScript `a / b` on integer-valued numbers. -/
def jsDiv (a b : Int) : JSNum :=
  if b = 0 then
    if a = 0 then .nan else if 0 < a then .posInf else .negInf
  else .fin ((a : ℚ) / (b : ℚ))

/-! ## Configuration -/

/-- The object handed to `setConfig`. -/
structure ConfigInput where
  main_card : JSVal
  drawer_cards : JSVal
  handle_color : Option String := none
  handle_height : Option Int := none
  drawer_background : Option String := none
  drawer_blur : Option Int := none
  animation_duration : Option Int := none
  swipe_threshold : Option Int := none
  auto_close_on_tap : Option Bool := none
  deriving DecidableEq

/-- The object `setConfig` stores in `_config`. -/
structure Config where
  main_card : JSVal
  drawer_cards : JSVal
  handle_color : String
  handle_height : Int
  drawer_background : String
  drawer_blur : Int
  animation_duration : Int
  swipe_threshold : Int
  auto_close_on_tap : Bool
  deriving DecidableEq

/-! ## Panels -/

/-- What a panel is: an element made by the card factory, or the `ha-card` error card. -/
inductive CardBody where
  | element (id : Nat)
  | errorCard (innerHTML : String)
  deriving DecidableEq, Repr

/-- A panel held in `_mainCard` or in a slot of `_drawerCards`. `hasHass` is the test
`'hass' in card`, `hass` the value last assigned to the property. -/
structure Card where
  body : CardBody
  hasHass : Bool
  hass : JSVal
  deriving DecidableEq

/-- An element as the factory `createCardElement` returns it. -/
structure Element where
  id : Nat
  hasHass : Bool
  hass : JSVal
  deriving DecidableEq

/-- The panel that is the factory's element. -/
def Card.ofElement (el : Element) : Card :=
  { body := .element el.id, hasHass := el.hasHass, hass := el.hass }

/-- The assignment `card.hass = h`. -/
def Card.assignHass (c : Card) (h : JSVal) : Card :=
  { c with hasHass := true, hass := h }

/-- A panel is live when it is an element of the factory, not an error card. -/
def Card.isLive (c : Card) : Bool :=
  match c.body with
  | .element _ => true
  | .errorCard _ => false

/-- Outcome of one awaited `helpers.createCardElement(...)`: the element, or the
`message` of the error it threw. -/
abbrev FactoryResult := Except String Element

/-! ## Shadow DOM -/

/-- The element `#drawer`: its classes and inline transform (`none` is the empty string,
`some ty` is `translateY(ty px)`). -/
structure DrawerEl where
  classOpen : Bool := false
  classDragging : Bool := false
  styleTransform : Option Int := none
  deriving DecidableEq

/-- The element `#overlay`: its classes and the inline opacity and visibility
(`none` and `""` are the empty string). -/
structure OverlayEl where
  classVisible : Bool := false
  classDragging : Bool := false
  styleOpacity : Option JSNum := none
  styleVisibility : String := ""
  deriving DecidableEq

/-! ## Widget state -/

/-- Where the coroutine `_buildCards` is suspended. -/
inductive BuildPc where
  | idle
  | awaitHelpers
  | awaitMain
  | awaitDrawer (rest : List Atom)
  deriving DecidableEq, Repr

end PullDownCard

/-- The instance fields of `PullDownCard`, the two elements of the shadow DOM the
gestures write, and the event-loop state: the suspended build, the descriptors handed
to the factory so far, the `mousemove`/`mouseup` listener pairs registered on the
document, the closure variable `touchStartTime` and the pending `setTimeout` calls. -/
structure PullDownCard where
  _config : Option PullDownCard.Config := none
  _hass : PullDownCard.JSVal := .atom .null
  _mainCard : Option PullDownCard.Card := none
  _drawerCards : List PullDownCard.Card := []
  _initialized : Bool := false
  _building : Bool := false
  _isOpen : Bool := false
  _startY : Int := 0
  _currentY : Int := 0
  _dragging : Bool := false
  _drawerHeight : Int := 0
  _hasMoved : Bool := false
  drawer : PullDownCard.DrawerEl := {}
  overlay : PullDownCard.OverlayEl := {}
  pc : PullDownCard.BuildPc := .idle
  factoryLog : List PullDownCard.JSVal := []
  mouseListeners : Nat := 0
  touchStartTime : Int := 0
  timers : List Int := []
  deriving DecidableEq

namespace PullDownCard

/-- The state the constructor leaves. -/
def init : PullDownCard := {}

/-! ## Panel lifecycle -/

/-- Embeds `_buildCards`, up to its first `await`. -/
def _buildCards (s : PullDownCard) : PullDownCard :=
  if s._config.isNone || !s._hass.truthy then s
  else if s._initialized || s._building then s
  else { s with _building := true, pc := .awaitHelpers }

/-- The object literal of `setConfig`. -/
def storedConfig (config : ConfigInput) : Config :=
  { main_card := config.main_card
    drawer_cards := config.drawer_cards
    handle_color := config.handle_color.getD "rgba(255, 255, 255, 0.4)"
    handle_height := config.handle_height.getD 24
    drawer_background := config.drawer_background.getD "rgba(0, 0, 0, 0.5)"
    drawer_blur := config.drawer_blur.getD 20
    animation_duration := config.animation_duration.getD 300
    swipe_threshold := config.swipe_threshold.getD 50
    auto_close_on_tap := config.auto_close_on_tap.getD true }

/-- Embeds `setConfig(config)`: `.error message` is the thrown `Error`. -/
def setConfig (s : PullDownCard) (config : ConfigInput) : Except String PullDownCard :=
  if !config.main_card.truthy then
    .error "Please define main_card"
  else if !config.drawer_cards.truthy || !config.drawer_cards.isArray then
    .error "Please define drawer_cards as an array"
  else
    let s1 := { s with _config := some (storedConfig config) }
    if s1._hass.truthy && !s1._initialized then .ok (_buildCards s1) else .ok s1

/-- Embeds `_createErrorCard(message)`: a fresh `ha-card`, which has no `hass` property,
with the message in its markup. -/
def _createErrorCard (message : String) : Card :=
  { body := .errorCard
      ("<div style=\"padding: 16px; color: var(--error-color);\">Error: " ++ message ++ "</div>")
    hasHass := false
    hass := .undef }

/-- One `try`/`catch` of `_buildCards` once the factory call has settled: the element
with `hass` assigned, or the error card. -/
def builtCard (hass : JSVal) : FactoryResult → Card
  | .ok el => (Card.ofElement el).assignHass hass
  | .error message => _createErrorCard message

/-- The reset of the drag overrides; `_render` builds fresh elements. -/
def _render (s : PullDownCard) : PullDownCard :=
  { s with drawer := {}, overlay := {} }

/-- The end of `_buildCards`: `_render()`, `_initialized = true`, `_setupGestures()`.
From here on the listeners exist, which the event handlers test through `_initialized`. -/
def finishBuild (s : PullDownCard) : PullDownCard :=
  { _render s with _initialized := true, pc := .idle }

/-- The `for ... of` loop of `_buildCards` at the head of an iteration: with no
descriptor left the build finishes, otherwise the factory is called and awaited. -/
def drawerLoop (s : PullDownCard) : List Atom → PullDownCard
  | [] => finishBuild s
  | d :: rest => { s with pc := .awaitDrawer rest, factoryLog := s.factoryLog ++ [.atom d] }

/-- Resumption of `_buildCards` after `await this._loadCardHelpers()`: the factory is
called on `this._config.main_card` and awaited. -/
def resumeHelpers (s : PullDownCard) : PullDownCard :=
  match s.pc, s._config with
  | .awaitHelpers, some cfg =>
      { s with pc := .awaitMain, factoryLog := s.factoryLog ++ [cfg.main_card] }
  | .awaitHelpers, none => { s with pc := .idle }
  | _, _ => s

/-- Resumption of `_buildCards` when the awaited factory call settles with `r`. After
the main card, `_drawerCards` is emptied and the loop starts on the array that
`this._config.drawer_cards` holds at that moment (a value that is not iterable ends
the coroutine with the build flag still set). -/
def resumeCard (s : PullDownCard) (r : FactoryResult) : PullDownCard :=
  match s.pc with
  | .awaitMain =>
      let s1 := { s with _mainCard := some (builtCard s._hass r), _drawerCards := [] }
      match s1._config with
      | some cfg =>
          match cfg.drawer_cards with
          | .array items => drawerLoop s1 items
          | .atom _ => { s1 with pc := .idle }
      | none => { s1 with pc := .idle }
  | .awaitDrawer rest =>
      drawerLoop { s with _drawerCards := s._drawerCards ++ [builtCard s._hass r] } rest
  | _ => s

/-- The forwarding of `set hass`: `if (card && 'hass' in card) card.hass = hass`. -/
def forwardHass (hass : JSVal) (c : Card) : Card :=
  if c.hasHass then c.assignHass hass else c

/-- The first part of `set hass`: store the value and forward it to the panels. -/
def hassPropagate (s : PullDownCard) (hass : JSVal) : PullDownCard :=
  { s with
    _hass := hass
    _mainCard := s._mainCard.map (forwardHass hass)
    _drawerCards := s._drawerCards.map (forwardHass hass) }

/-- The setter `set hass(hass)`. -/
def setHass (s : PullDownCard) (hass : JSVal) : PullDownCard :=
  let s1 := hassPropagate s hass
  if !s1._initialized && s1._config.isSome then _buildCards s1 else s1

/-! ## Drawer state and position -/

/-- Embeds `_updateDrawerHeight()`, `offsetHeight` being what the drawer measures. -/
def _updateDrawerHeight (s : PullDownCard) (offsetHeight : Int) : PullDownCard :=
  { s with _drawerHeight := offsetHeight }

/-- Embeds `_updateDrawerPosition(position, isClosing)`. -/
def _updateDrawerPosition (s : PullDownCard) (position : Int) (isClosing : Bool) :
    PullDownCard :=
  if isClosing then
    let clampedPosition := max 0 (min s._drawerHeight position)
    let translateY := -(s._drawerHeight - clampedPosition)
    { s with
      drawer := { s.drawer with classDragging := true, styleTransform := some translateY }
      overlay := { s.overlay with
        classDragging := true
        styleOpacity := some (jsDiv clampedPosition s._drawerHeight) }
      _currentY := s._startY + position }
  else
    let clampedPosition := min s._drawerHeight position
    let translateY := -s._drawerHeight + clampedPosition
    { s with
      drawer := { s.drawer with classDragging := true, styleTransform := some translateY }
      overlay := { s.overlay with
        classDragging := true
        styleOpacity := some (jsDiv clampedPosition s._drawerHeight)
        styleVisibility := "visible" }
      _currentY := s._startY + position }

/-- Embeds `_resetDragging()`. -/
def _resetDragging (s : PullDownCard) : PullDownCard :=
  { s with
    drawer := { s.drawer with classDragging := false, styleTransform := none }
    overlay := { s.overlay with classDragging := false, styleOpacity := none } }

/-- Embeds `_openDrawer()`. -/
def _openDrawer (s : PullDownCard) : PullDownCard :=
  { s with
    _isOpen := true
    drawer := { s.drawer with classOpen := true }
    overlay := { s.overlay with classVisible := true, styleVisibility := "" } }

/-- Embeds `_closeDrawer()`. -/
def _closeDrawer (s : PullDownCard) : PullDownCard :=
  { s with
    _isOpen := false
    drawer := { s.drawer with classOpen := false }
    overlay := { s.overlay with classVisible := false } }

/-- The threshold read at release, `this._config.swipe_threshold`. `_config` is set in
every state that has listeners; the default stands for the other case. -/
def swipeThreshold (s : PullDownCard) : Int :=
  match s._config with
  | some cfg => cfg.swipe_threshold
  | none => 50

/-! ## Gestures -/

/-- Embeds `_onTouchStart(e)` with `y = e.touches[0].clientY`. -/
def _onTouchStart (s : PullDownCard) (y offsetHeight : Int) : PullDownCard :=
  if s._isOpen then s
  else _updateDrawerHeight { s with _startY := y, _dragging := true } offsetHeight

/-- Embeds `_onTouchMove(e)` with `y = e.touches[0].clientY`. -/
def _onTouchMove (s : PullDownCard) (y : Int) : PullDownCard :=
  if !s._dragging || s._isOpen then s
  else
    let deltaY := y - s._startY
    if deltaY > 0 then _updateDrawerPosition s deltaY false else s

/-- Embeds `_onTouchEnd(e)`. -/
def _onTouchEnd (s : PullDownCard) : PullDownCard :=
  if !s._dragging then s
  else
    let s1 := { s with _dragging := false }
    let deltaY := s1._currentY - s1._startY
    let s2 := if deltaY > swipeThreshold s1 then _openDrawer s1 else _closeDrawer s1
    _resetDragging s2

/-- The closure `onMouseMove` of `_onMouseDown`. -/
def onMouseMove (s : PullDownCard) (y : Int) : PullDownCard :=
  if !s._dragging then s
  else
    let deltaY := y - s._startY
    if deltaY > 0 then _updateDrawerPosition s deltaY false else s

/-- The closure `onMouseUp` of `_onMouseDown`; it removes its own listener pair only
when it handles the release. -/
def onMouseUp (s : PullDownCard) (y : Int) : PullDownCard :=
  if !s._dragging then s
  else
    let s1 := { s with _dragging := false }
    let deltaY := y - s1._startY
    let s2 := if deltaY > swipeThreshold s1 then _openDrawer s1 else _closeDrawer s1
    let s3 := _resetDragging s2
    { s3 with mouseListeners := s3.mouseListeners - 1 }

/-- Embeds `_onMouseDown(e)` with `y = e.clientY`: a new pair of closures is registered on the
document at every press that passes the guard. -/
def _onMouseDown (s : PullDownCard) (y offsetHeight : Int) : PullDownCard :=
  if s._isOpen then s
  else
    let s1 := _updateDrawerHeight { s with _startY := y, _dragging := true } offsetHeight
    { s1 with mouseListeners := s1.mouseListeners + 1 }

/-- A `mousemove` on the document: each of the `n` registered closures runs. -/
def dispatchMouseMove (y : Int) : Nat → PullDownCard → PullDownCard
  | 0, s => s
  | n + 1, s => dispatchMouseMove y n (onMouseMove s y)

/-- A `mouseup` on the document: each of the `n` closures registered when the event
is dispatched runs, in registration order. -/
def dispatchMouseUp (y : Int) : Nat → PullDownCard → PullDownCard
  | 0, s => s
  | n + 1, s => dispatchMouseUp y n (onMouseUp s y)

/-- Embeds `_onDrawerTouchStart(e)`. -/
def _onDrawerTouchStart (s : PullDownCard) (y : Int) : PullDownCard :=
  if !s._isOpen then s
  else { s with _startY := y, _dragging := true, _hasMoved := false }

/-- Embeds `_onDrawerTouchMove(e)`. -/
def _onDrawerTouchMove (s : PullDownCard) (y : Int) : PullDownCard :=
  if !s._dragging || !s._isOpen then s
  else
    let deltaY := y - s._startY
    if deltaY < 0 then
      _updateDrawerPosition { s with _hasMoved := true } (s._drawerHeight + deltaY) true
    else s

/-- Embeds `_onDrawerTouchEnd(e)`. -/
def _onDrawerTouchEnd (s : PullDownCard) : PullDownCard :=
  if !s._dragging || !s._isOpen then s
  else
    let s1 := { s with _dragging := false }
    let deltaY := s1._currentY - s1._startY
    let s2 := if deltaY < -swipeThreshold s1 then _closeDrawer s1 else _openDrawer s1
    _resetDragging s2

/-- The `keydown` listener of `_setupGestures`. -/
def onKeydown (s : PullDownCard) (key : String) : PullDownCard :=
  if key == "Escape" && s._isOpen then _closeDrawer s else s

/-- The capturing `pointerdown` listener; `inCards` is `path.includes(drawerCardsEl)`
and `now` is `Date.now()`. -/
def onPointerDown (s : PullDownCard) (inCards : Bool) (now : Int) : PullDownCard :=
  if !s._isOpen then s
  else if inCards then { s with touchStartTime := now } else s

/-- The flag `this._config.auto_close_on_tap`. -/
def autoCloseOnTap (s : PullDownCard) : Bool :=
  match s._config with
  | some cfg => cfg.auto_close_on_tap
  | none => true

/-- The capturing `pointerup` listener; a scheduled close is kept as its due time. -/
def onPointerUp (s : PullDownCard) (inCards : Bool) (now : Int) : PullDownCard :=
  if !s._isOpen then s
  else if !autoCloseOnTap s then s
  else if inCards then
    if now - s.touchStartTime < 300 then { s with timers := s.timers ++ [now + 200] } else s
  else s

/-- The oldest pending `setTimeout` callback runs: `this._closeDrawer()`. -/
def onTimer (s : PullDownCard) : PullDownCard :=
  match s.timers with
  | [] => s
  | _ :: rest => _closeDrawer { s with timers := rest }

/-! ## Event loop -/

/-- What the host, the factory and the user can do to the widget. -/
inductive Event where
  | setConfig (config : ConfigInput)
  | setHass (hass : JSVal)
  | helpersLoaded
  | cardSettled (r : FactoryResult)
  | touchStart (y offsetHeight : Int)
  | touchMove (y : Int)
  | touchEnd
  | mouseDown (y offsetHeight : Int)
  | mouseMove (y : Int)
  | mouseUp (y : Int)
  | drawerTouchStart (y : Int)
  | drawerTouchMove (y : Int)
  | drawerTouchEnd
  | overlayClick
  | keydown (key : String)
  | pointerDown (inCards : Bool) (now : Int)
  | pointerUp (inCards : Bool) (now : Int)
  | timer

/-- One turn of the event loop. A `setConfig` that throws leaves the widget as it was;
the DOM listeners exist once `_setupGestures` has run. -/
def step (s : PullDownCard) : Event → PullDownCard
  | .setConfig config =>
      match setConfig s config with
      | .ok s1 => s1
      | .error _ => s
  | .setHass hass => setHass s hass
  | .helpersLoaded => resumeHelpers s
  | .cardSettled r => resumeCard s r
  | .touchStart y h => if s._initialized then _onTouchStart s y h else s
  | .touchMove y => if s._initialized then _onTouchMove s y else s
  | .touchEnd => if s._initialized then _onTouchEnd s else s
  | .mouseDown y h => if s._initialized then _onMouseDown s y h else s
  | .mouseMove y => dispatchMouseMove y s.mouseListeners s
  | .mouseUp y => dispatchMouseUp y s.mouseListeners s
  | .drawerTouchStart y => if s._initialized then _onDrawerTouchStart s y else s
  | .drawerTouchMove y => if s._initialized then _onDrawerTouchMove s y else s
  | .drawerTouchEnd => if s._initialized then _onDrawerTouchEnd s else s
  | .overlayClick => if s._initialized then _closeDrawer s else s
  | .keydown key => if s._initialized then onKeydown s key else s
  | .pointerDown inCards now => if s._initialized then onPointerDown s inCards now else s
  | .pointerUp inCards now => if s._initialized then onPointerUp s inCards now else s
  | .timer => onTimer s

/-- The widget after a sequence of events. -/
def run (s : PullDownCard) (evs : List Event) : PullDownCard :=
  evs.foldl step s

/-- The shared-state value the widget received last, `start` when it received none. -/
def lastHass (start : JSVal) (evs : List Event) : JSVal :=
  evs.foldl (fun h ev => match ev with | .setHass v => v | _ => h) start

/-! ## Invariants of the panel slots -/

/-- A panel agrees with the shared state `h`: a live element has been given a `hass`
property and holds `h`; an error card has no `hass` property. -/
def Card.agrees (h : JSVal) (c : Card) : Bool :=
  if c.isLive then c.hasHass && decide (c.hass = h) else !c.hasHass

/-- Every panel held by the widget agrees with the widget's latest shared state. -/
def slotsAgree (s : PullDownCard) : Bool :=
  s._mainCard.all (Card.agrees s._hass) && s._drawerCards.all (Card.agrees s._hass)

/-- The build is past its main panel: it is in the drawer loop or has completed. -/
def pastMain (s : PullDownCard) : Bool :=
  s._initialized ||
    match s.pc with
    | .awaitDrawer _ => true
    | _ => false

/-- Once the build is past its main panel, the main slot is filled. -/
def mainFilled (s : PullDownCard) : Bool :=
  !pastMain s || s._mainCard.isSome

/-! ## Gesture phases -/

/-- An opening drag is in progress on the handle zone: the listeners exist, the drawer
is closed, `_dragging` is set, the captured origin is `y0` and the configuration is `cfg`. -/
def OpeningDrag (cfg : Config) (y0 : Int) (s : PullDownCard) : Prop :=
  s._initialized = true ∧ s._isOpen = false ∧ s._dragging = true ∧ s._startY = y0 ∧
    s._config = some cfg

instance (cfg : Config) (y0 : Int) (s : PullDownCard) : Decidable (OpeningDrag cfg y0 s) := by
  unfold OpeningDrag
  infer_instance

/-- A closing drag is in progress on the drawer body: the listeners exist, the drawer is
open, `_dragging` is set, the captured origin is `y0`, the measured extent is `H` and
the configuration is `cfg`. -/
def ClosingDrag (cfg : Config) (y0 H : Int) (s : PullDownCard) : Prop :=
  s._initialized = true ∧ s._isOpen = true ∧ s._dragging = true ∧ s._startY = y0 ∧
    s._drawerHeight = H ∧ s._config = some cfg

instance (cfg : Config) (y0 H : Int) (s : PullDownCard) :
    Decidable (ClosingDrag cfg y0 H s) := by
  unfold ClosingDrag
  infer_instance

/-! ## Example data -/

/-- A panel descriptor: an object, told apart by its id. -/
def descriptor (id : Nat) : JSVal := .atom (.obj id)

/-- A shared-state object of the host. -/
def hassObj (id : Nat) : JSVal := .atom (.obj id)

/-- The configuration `{main_card: A, drawer_cards: [B, C]}` with A, B, C the objects 1, 2, 3. -/
def configABC : ConfigInput :=
  { main_card := descriptor 1, drawer_cards := .array [.obj 2, .obj 3] }

/-- A configuration with no drawer panel. -/
def configA : ConfigInput :=
  { main_card := descriptor 1, drawer_cards := .array [] }

/-- A configuration whose `main_card` is present with the value `false`. -/
def configFalseMain : ConfigInput :=
  { main_card := .atom (.bool false), drawer_cards := .array [] }

/-- A configuration object without a `main_card` property. -/
def configNoMain : ConfigInput :=
  { main_card := JSVal.undef, drawer_cards := .array [] }

/-- A fresh element of the factory, not yet given a `hass`. -/
def freshElement (id : Nat) : Element :=
  { id := id, hasHass := false, hass := JSVal.undef }

/-- The widget built from `configA` with shared state `hassObj 100`: mounted, drawer
closed, default threshold of 50. -/
def mounted : PullDownCard :=
  run init [.setConfig configA, .setHass (hassObj 100), .helpersLoaded,
    .cardSettled (.ok (freshElement 1))]

/-- A build in flight: `configABC` is stored, the shared state has arrived, the helpers
are not loaded yet. -/
def inFlight : PullDownCard :=
  run init [.setConfig configABC, .setHass (hassObj 100)]

/-- Scenario 1 of the specification: `{A, [B, C]}` is configured, the shared state
arrives, and B's construction throws. -/
def scenario1 : List Event :=
  [.setConfig configABC, .setHass (hassObj 100), .helpersLoaded,
    .cardSettled (.ok (freshElement 1)), .cardSettled (.error "boom"),
    .cardSettled (.ok (freshElement 3))]

/-- A build of `{A, [B, C]}` with a shared-state update before each awaited
construction settles; B's element comes with a `hass` of its own. -/
def interleaved : List Event :=
  [.setHass (hassObj 100), .setConfig configABC, .setHass (hassObj 101), .helpersLoaded,
    .setHass (hassObj 102), .cardSettled (.ok (freshElement 1)),
    .setHass (hassObj 103),
    .cardSettled (.ok { id := 2, hasHass := true, hass := hassObj 55 }),
    .setHass (hassObj 104), .cardSettled (.ok (freshElement 3))]

/-- The mounted widget after a handle-zone touch drag of 70px (from 10 to 80) with a
measured drawer extent of 400: the drawer is OPEN. -/
def opened : PullDownCard :=
  run mounted [.touchStart 10 400, .touchMove 80, .touchEnd]

/-! ## Configuration: `setConfig` -/

theorem buildCards_config (s : PullDownCard) : (_buildCards s)._config = s._config := by
  unfold _buildCards
  split
  · rfl
  · split <;> rfl

theorem isArray_truthy (v : JSVal) (h : v.isArray = true) : v.truthy = true := by
  cases v with
  | atom a => simp [JSVal.isArray] at h
  | array items => rfl

theorem setConfig_ok (s : PullDownCard) (config : ConfigInput)
    (hm : config.main_card.truthy = true) (hd : config.drawer_cards.isArray = true) :
    setConfig s config =
      .ok (if s._hass.truthy && !s._initialized
        then _buildCards { s with _config := some (storedConfig config) }
        else { s with _config := some (storedConfig config) }) := by
  unfold setConfig
  rw [hm, hd, isArray_truthy _ hd]
  simp only [Bool.not_true, Bool.or_self, Bool.false_eq_true, if_false]
  split <;> rfl

theorem setConfig_error (s : PullDownCard) (config : ConfigInput)
    (h : config.main_card.truthy = false ∨ config.drawer_cards.isArray = false) :
    ∃ m, setConfig s config = .error m := by
  unfold setConfig
  cases hm : config.main_card.truthy
  · exact ⟨"Please define main_card", by simp⟩
  · rcases h with h | h
    · rw [hm] at h; cases h
    · exact ⟨"Please define drawer_cards as an array", by simp [h]⟩

/-- C1, counterexample: a configuration whose `main_card` is present with the value
`false` and whose `drawer_cards` is an array is rejected, although no field is
missing and `drawer_cards` is an array; the same holds for a `main_card` of `0` and
of the empty string. -/
theorem setConfig_rejects_present_falsy_main_card :
    setConfig init configFalseMain = .error "Please define main_card" ∧
      configFalseMain.main_card ≠ JSVal.undef ∧
      configFalseMain.drawer_cards ≠ JSVal.undef ∧
      configFalseMain.drawer_cards.isArray = true ∧
      setConfig init { configFalseMain with main_card := .atom (.num 0) }
        = .error "Please define main_card" ∧
      setConfig init { configFalseMain with main_card := .atom (.str "") }
        = .error "Please define main_card" :=
  ⟨rfl, by decide, by decide, rfl, rfl, rfl⟩

/-- C1, amended: `setConfig` throws exactly when `main_card` is falsy (missing, `null`,
`false`, `0`, `NaN` or the empty string) or `drawer_cards` is not an array; a missing
field is one such case and the empty array is accepted; a call that throws leaves the
widget, `_config` included, as it was; a call that returns has stored `main_card` and
`drawer_cards` as given. -/
theorem setConfig_contract (s : PullDownCard) (config : ConfigInput) :
    ((∃ m, setConfig s config = .error m) ↔
        (config.main_card.truthy = false ∨ config.drawer_cards.isArray = false)) ∧
      ((config.main_card = JSVal.undef ∨ config.drawer_cards = JSVal.undef) →
        ∃ m, setConfig s config = .error m) ∧
      ((config.main_card.truthy = true ∧ config.drawer_cards = .array []) →
        ∃ s1, setConfig s config = .ok s1) ∧
      ((∃ m, setConfig s config = .error m) →
        step s (.setConfig config) = s ∧ (step s (.setConfig config))._config = s._config) ∧
      (∀ s1, setConfig s config = .ok s1 →
        ∃ cfg, s1._config = some cfg ∧ cfg.main_card = config.main_card ∧
          cfg.drawer_cards = config.drawer_cards) := by
  have ok_cfg : ∀ s1, setConfig s config = .ok s1 →
      config.main_card.truthy = true ∧ config.drawer_cards.isArray = true := by
    intro s1 h
    cases hm : config.main_card.truthy
    · obtain ⟨m, hm'⟩ := setConfig_error s config (Or.inl hm)
      rw [hm'] at h; cases h
    · cases hd : config.drawer_cards.isArray
      · obtain ⟨m, hm'⟩ := setConfig_error s config (Or.inr hd)
        rw [hm'] at h; cases h
      · exact ⟨rfl, rfl⟩
  have key : (∃ m, setConfig s config = .error m) ↔
      (config.main_card.truthy = false ∨ config.drawer_cards.isArray = false) := by
    constructor
    · rintro ⟨m, h⟩
      cases hm : config.main_card.truthy
      · exact Or.inl rfl
      · cases hd : config.drawer_cards.isArray
        · exact Or.inr rfl
        · rw [setConfig_ok s config hm hd] at h; cases h
    · exact setConfig_error s config
  refine ⟨key, ?_, ?_, ?_, ?_⟩
  · rintro (h | h)
    · exact key.mpr (Or.inl (by rw [h]; rfl))
    · exact key.mpr (Or.inr (by rw [h]; rfl))
  · rintro ⟨hm, hd⟩
    exact ⟨_, setConfig_ok s config hm (by rw [hd]; rfl)⟩
  · rintro ⟨m, hm⟩
    simp [step, hm]
  · intro s1 h
    obtain ⟨hm, hd⟩ := ok_cfg s1 h
    rw [setConfig_ok s config hm hd] at h
    refine ⟨storedConfig config, ?_, rfl, rfl⟩
    injection h with h
    rw [← h]
    split
    · rw [buildCards_config]
    · rfl

/-- C1, witness: the configuration `{A, [B, C]}` is accepted and stored as given, and a
configuration without `main_card` is rejected and changes nothing. -/
theorem setConfig_contract_witness :
    (∃ cfg, ({ init with _config := some (storedConfig configABC) } : PullDownCard)._config
          = some cfg ∧
        cfg.main_card = configABC.main_card ∧ cfg.drawer_cards = configABC.drawer_cards) ∧
      (step init (.setConfig configNoMain) = init ∧
        (step init (.setConfig configNoMain))._config = init._config) :=
  ⟨(setConfig_contract init configABC).2.2.2.2 _ rfl,
    (setConfig_contract init configNoMain).2.2.2.1 ⟨_, rfl⟩⟩

/-! ## Panel lifecycle: one build pass -/

theorem run_nil (s : PullDownCard) : run s [] = s := rfl

theorem run_cons (s : PullDownCard) (ev : Event) (evs : List Event) :
    run s (ev :: evs) = run (step s ev) evs := rfl

theorem run_append (s : PullDownCard) (evs evs' : List Event) :
    run s (evs ++ evs') = run (run s evs) evs' := by
  simp [run, List.foldl_append]

theorem finishBuild_pc (s : PullDownCard) (p : BuildPc) :
    finishBuild { s with pc := p } = finishBuild s := rfl

theorem step_cardSettled_drawer (s : PullDownCard) (d : Atom) (rest : List Atom)
    (o : FactoryResult) :
    step (drawerLoop s (d :: rest)) (.cardSettled o) =
      drawerLoop { s with
        _drawerCards := s._drawerCards ++ [builtCard s._hass o]
        factoryLog := s.factoryLog ++ [.atom d]
        pc := .awaitDrawer rest } rest := rfl

/-- The drawer loop, fed one settled factory call per remaining descriptor, finishes
the build with one slot appended per descriptor, in order. -/
theorem run_drawerLoop (items : List Atom) :
    ∀ (s : PullDownCard) (os : List FactoryResult), os.length = items.length →
      run (drawerLoop s items) (os.map .cardSettled) =
        finishBuild { s with
          _drawerCards := s._drawerCards ++ os.map (builtCard s._hass)
          factoryLog := s.factoryLog ++ items.map .atom } := by
  induction items with
  | nil =>
      intro s os h
      have : os = [] := List.length_eq_zero.mp h
      subst this
      simp [run_nil, drawerLoop]
  | cons d rest ih =>
      intro s os h
      cases os with
      | nil => simp at h
      | cons o os' =>
          simp only [List.length_cons, Nat.add_right_cancel_iff] at h
          rw [List.map_cons, run_cons, step_cardSettled_drawer, ih _ os' h]
          simp [finishBuild, _render]

theorem buildCards_start (s : PullDownCard) (cfg : Config) (hcfg : s._config = some cfg)
    (hh : s._hass.truthy = true) (hi : s._initialized = false) (hb : s._building = false) :
    _buildCards s = { s with _building := true, pc := .awaitHelpers } := by
  simp [_buildCards, hcfg, hh, hi, hb]

/-- Closed form of one build pass with no other event in between. -/
theorem run_build (s : PullDownCard) (cfg : Config) (items : List Atom)
    (rm : FactoryResult) (os : List FactoryResult)
    (hcfg : s._config = some cfg) (harr : cfg.drawer_cards = .array items)
    (hh : s._hass.truthy = true) (hi : s._initialized = false) (hb : s._building = false)
    (hlen : os.length = items.length) :
    run (_buildCards s) (.helpersLoaded :: .cardSettled rm :: os.map .cardSettled) =
      finishBuild { s with
        _building := true
        _mainCard := some (builtCard s._hass rm)
        _drawerCards := os.map (builtCard s._hass)
        factoryLog := s.factoryLog ++ cfg.main_card :: items.map .atom } := by
  rw [buildCards_start s cfg hcfg hh hi hb, run_cons, run_cons]
  have h1 : step (step { s with _building := true, pc := .awaitHelpers } .helpersLoaded)
      (.cardSettled rm) =
      drawerLoop { s with
        _building := true
        pc := .awaitMain
        factoryLog := s.factoryLog ++ [cfg.main_card]
        _mainCard := some (builtCard s._hass rm)
        _drawerCards := [] } items := by
    simp [step, resumeHelpers, resumeCard, hcfg, harr]
  rw [h1, run_drawerLoop items _ os hlen]
  simp [finishBuild, _render]

theorem getElem?_map_builtCard (h : JSVal) (os : List FactoryResult) (i : Nat) :
    (os.map (builtCard h))[i]? = (os[i]?).map (builtCard h) := by
  simp

/-- The error card carries its message: two messages give the same card only when they
are the same message. -/
theorem createErrorCard_injective (m1 m2 : String)
    (h : _createErrorCard m1 = _createErrorCard m2) : m1 = m2 := by
  unfold _createErrorCard at h
  simp only [Card.mk.injEq, CardBody.errorCard.injEq, and_self, and_true] at h
  have h2 := congrArg String.data h
  simp only [String.data_append, List.append_assoc] at h2
  exact String.ext (List.append_cancel_right (List.append_cancel_left h2))

/-- C2: from a state with a configuration whose `drawer_cards` is an array of n
descriptors and a truthy shared state, with no build started, one build pass whose
factory calls settle with any outcomes completes; the drawer list then has n entries in
`drawer_cards` order, entry i being the factory's element for descriptor i (with the
shared state assigned) when the call returned and, when it threw with message `m`, an
`ha-card` without `hass` whose markup is the error block ending in `Error: m`; two
failures with different messages give different error cards; a slot depends on its own
outcome only; the main panel is the element or the error card in the same way; and the
factory was called once per descriptor, in order. -/
theorem buildCards_slots (s : PullDownCard) (cfg : Config) (items : List Atom)
    (rm : FactoryResult) (os : List FactoryResult)
    (hcfg : s._config = some cfg) (harr : cfg.drawer_cards = .array items)
    (hh : s._hass.truthy = true) (hi : s._initialized = false) (hb : s._building = false)
    (hlen : os.length = items.length) :
    (run (_buildCards s)
        (.helpersLoaded :: .cardSettled rm :: os.map .cardSettled))._initialized = true ∧
      (run (_buildCards s)
        (.helpersLoaded :: .cardSettled rm :: os.map .cardSettled))._drawerCards.length
          = items.length ∧
      (∀ (i : Nat) (el : Element), os[i]? = some (Except.ok el) →
        (run (_buildCards s)
          (.helpersLoaded :: .cardSettled rm :: os.map .cardSettled))._drawerCards[i]?
            = some ({ body := .element el.id, hasHass := true, hass := s._hass } : Card)) ∧
      (∀ (i : Nat) (m : String), os[i]? = some (Except.error m) →
        (run (_buildCards s)
          (.helpersLoaded :: .cardSettled rm :: os.map .cardSettled))._drawerCards[i]?
            = some
              { body := .errorCard
                  ("<div style=\"padding: 16px; color: var(--error-color);\">Error: " ++ m
                    ++ "</div>"),
                hasHass := false,
                hass := JSVal.undef }) ∧
      (∀ (rm2 : FactoryResult) (os2 : List FactoryResult) (i : Nat),
        os2.length = items.length → os2[i]? = os[i]? →
        (run (_buildCards s)
          (.helpersLoaded :: .cardSettled rm2 :: os2.map .cardSettled))._drawerCards[i]?
            = (run (_buildCards s)
              (.helpersLoaded :: .cardSettled rm :: os.map .cardSettled))._drawerCards[i]?) ∧
      (∀ el : Element, rm = Except.ok el →
        (run (_buildCards s)
          (.helpersLoaded :: .cardSettled rm :: os.map .cardSettled))._mainCard
            = some ({ body := .element el.id, hasHass := true, hass := s._hass } : Card)) ∧
      (∀ m : String, rm = Except.error m →
        (run (_buildCards s)
          (.helpersLoaded :: .cardSettled rm :: os.map .cardSettled))._mainCard
            = some
              { body := .errorCard
                  ("<div style=\"padding: 16px; color: var(--error-color);\">Error: " ++ m
                    ++ "</div>"),
                hasHass := false,
                hass := JSVal.undef }) ∧
      (∀ m1 m2 : String, builtCard s._hass (Except.error m1)
          = builtCard s._hass (Except.error m2) → m1 = m2) ∧
      (run (_buildCards s)
        (.helpersLoaded :: .cardSettled rm :: os.map .cardSettled)).factoryLog
          = s.factoryLog ++ cfg.main_card :: items.map .atom := by
  rw [run_build s cfg items rm os hcfg harr hh hi hb hlen]
  refine ⟨rfl, ?_, ?_, ?_, ?_, ?_, ?_, fun m1 m2 h => createErrorCard_injective m1 m2 h,
    rfl⟩
  · simp [finishBuild, _render, hlen]
  · intro i el h
    show (os.map (builtCard s._hass))[i]? = _
    rw [getElem?_map_builtCard, h]
    rfl
  · intro i m h
    show (os.map (builtCard s._hass))[i]? = _
    rw [getElem?_map_builtCard, h]
    rfl
  · intro rm2 os2 i hlen2 h
    rw [run_build s cfg items rm2 os2 hcfg harr hh hi hb hlen2]
    show (os2.map (builtCard s._hass))[i]? = (os.map (builtCard s._hass))[i]?
    rw [getElem?_map_builtCard, getElem?_map_builtCard, h]
  · intro el h
    subst h
    rfl
  · intro m h
    subst h
    rfl

/-- C2, witness: with `{main_card: A, drawer_cards: [B, C]}` and B's construction
throwing with the message `boom`, the build completes with A live, B's slot an error
card whose markup reads `Error: boom`, and C live in its own slot. -/
theorem buildCards_slots_witness :
    (run (_buildCards { init with _config := some (storedConfig configABC),
                                  _hass := hassObj 100 })
        [.helpersLoaded, .cardSettled (.ok (freshElement 1)),
          .cardSettled (.error "boom"), .cardSettled (.ok (freshElement 3))])._drawerCards
      = [{ body := .errorCard
             "<div style=\"padding: 16px; color: var(--error-color);\">Error: boom</div>",
           hasHass := false,
           hass := JSVal.undef },
          { body := .element 3, hasHass := true, hass := hassObj 100 }] ∧
    (run (_buildCards { init with _config := some (storedConfig configABC),
                                  _hass := hassObj 100 })
        [.helpersLoaded, .cardSettled (.ok (freshElement 1)),
          .cardSettled (.error "boom"), .cardSettled (.ok (freshElement 3))])._mainCard
      = some { body := .element 1, hasHass := true, hass := hassObj 100 } ∧
    (run (_buildCards { init with _config := some (storedConfig configABC),
                                  _hass := hassObj 100 })
        [.helpersLoaded, .cardSettled (.ok (freshElement 1)),
          .cardSettled (.error "boom"), .cardSettled (.ok (freshElement 3))])._initialized
      = true :=
  have h := buildCards_slots
    { init with _config := some (storedConfig configABC), _hass := hassObj 100 }
    (storedConfig configABC) [.obj 2, .obj 3] (.ok (freshElement 1))
    [.error "boom", .ok (freshElement 3)] rfl rfl rfl rfl rfl rfl
  ⟨by decide, h.2.2.2.2.2.1 (freshElement 1) rfl, h.1⟩

/-! ## Panel lifecycle: idempotence of the build -/

theorem map_body_forwardHass (h : JSVal) (cs : List Card) :
    (cs.map (forwardHass h)).map Card.body = cs.map Card.body := by
  induction cs with
  | nil => rfl
  | cons c cs ih =>
      simp only [List.map_cons, ih]
      congr 1
      unfold forwardHass
      split <;> rfl

theorem option_body_forwardHass (h : JSVal) (c : Option Card) :
    (c.map (forwardHass h)).map Card.body = c.map Card.body := by
  cases c with
  | none => rfl
  | some c =>
      simp only [Option.map_some']
      congr 1
      unfold forwardHass
      split <;> rfl

/-- C3: in a state where a build is in flight (`_building`) or has completed
(`_initialized`), `_buildCards` changes nothing at all; `setConfig`, when it returns,
changes `_config` only; and `set hass` does what its forwarding part does and nothing
more, so that no factory call is made, the suspended build is where it was, and the main
panel and every drawer slot hold the same panel as before. -/
theorem buildCards_idempotent (s : PullDownCard)
    (h : s._building = true ∨ s._initialized = true) :
    _buildCards s = s ∧
      (∀ config s1, setConfig s config = .ok s1 →
        s1 = { s with _config := some (storedConfig config) }) ∧
      (∀ hass, setHass s hass = hassPropagate s hass ∧
        (setHass s hass).factoryLog = s.factoryLog ∧
        (setHass s hass).pc = s.pc ∧
        (setHass s hass)._mainCard.map Card.body = s._mainCard.map Card.body ∧
        (setHass s hass)._drawerCards.map Card.body = s._drawerCards.map Card.body) := by
  have hb : ∀ t : PullDownCard, t._building = s._building → t._initialized = s._initialized →
      _buildCards t = t := by
    intro t h1 h2
    unfold _buildCards
    split
    · rfl
    · rw [h1, h2]
      rcases h with h | h <;> simp [h]
  have hs : ∀ hass, setHass s hass = hassPropagate s hass := by
    intro hass
    unfold setHass
    simp only
    split
    · exact hb _ rfl rfl
    · rfl
  refine ⟨hb s rfl rfl, ?_, ?_⟩
  · intro config s1 h1
    have hm : config.main_card.truthy = true := by
      cases hm : config.main_card.truthy
      · obtain ⟨m, hm'⟩ := setConfig_error s config (Or.inl hm)
        rw [hm'] at h1; cases h1
      · rfl
    have hd : config.drawer_cards.isArray = true := by
      cases hd : config.drawer_cards.isArray
      · obtain ⟨m, hm'⟩ := setConfig_error s config (Or.inr hd)
        rw [hm'] at h1; cases h1
      · rfl
    rw [setConfig_ok s config hm hd] at h1
    injection h1 with h1
    rw [← h1]
    split
    · exact hb _ rfl rfl
    · rfl
  · intro hass
    rw [hs hass]
    exact ⟨rfl, rfl, rfl, option_body_forwardHass hass s._mainCard,
      map_body_forwardHass hass s._drawerCards⟩

/-- C3, witness: with a build in flight, and on the mounted widget, a further
`_buildCards` is the identity, and a new shared state leaves the factory log and the
panel in the main slot as they were. -/
theorem buildCards_idempotent_witness :
    inFlight._building = true ∧ inFlight._initialized = false ∧
      _buildCards inFlight = inFlight ∧
      mounted._initialized = true ∧ _buildCards mounted = mounted ∧
      (setHass mounted (hassObj 7)).factoryLog = mounted.factoryLog ∧
      (setHass mounted (hassObj 7))._mainCard.map Card.body = mounted._mainCard.map Card.body :=
  ⟨rfl, rfl, (buildCards_idempotent inFlight (Or.inl rfl)).1,
    rfl, (buildCards_idempotent mounted (Or.inr rfl)).1,
    ((buildCards_idempotent mounted (Or.inr rfl)).2.2 (hassObj 7)).2.1,
    ((buildCards_idempotent mounted (Or.inr rfl)).2.2 (hassObj 7)).2.2.2.1⟩

/-! ## Shared state: what each event does to the slots -/

theorem buildCards_frame (s : PullDownCard) :
    (_buildCards s)._hass = s._hass ∧ (_buildCards s)._mainCard = s._mainCard ∧
      (_buildCards s)._drawerCards = s._drawerCards ∧
      (_buildCards s)._initialized = s._initialized := by
  unfold _buildCards
  split_ifs <;> exact ⟨rfl, rfl, rfl, rfl⟩

theorem updateDrawerPosition_frame (s : PullDownCard) (p : Int) (b : Bool) :
    (_updateDrawerPosition s p b)._hass = s._hass ∧
      (_updateDrawerPosition s p b)._mainCard = s._mainCard ∧
      (_updateDrawerPosition s p b)._drawerCards = s._drawerCards ∧
      (_updateDrawerPosition s p b)._initialized = s._initialized ∧
      (_updateDrawerPosition s p b).pc = s.pc := by
  unfold _updateDrawerPosition
  split_ifs <;> exact ⟨rfl, rfl, rfl, rfl, rfl⟩

theorem onMouseMove_frame (s : PullDownCard) (y : Int) :
    (onMouseMove s y)._hass = s._hass ∧ (onMouseMove s y)._mainCard = s._mainCard ∧
      (onMouseMove s y)._drawerCards = s._drawerCards ∧
      (onMouseMove s y)._initialized = s._initialized ∧ (onMouseMove s y).pc = s.pc := by
  simp only [onMouseMove, _updateDrawerPosition]
  split_ifs <;> exact ⟨rfl, rfl, rfl, rfl, rfl⟩

theorem onMouseUp_frame (s : PullDownCard) (y : Int) :
    (onMouseUp s y)._hass = s._hass ∧ (onMouseUp s y)._mainCard = s._mainCard ∧
      (onMouseUp s y)._drawerCards = s._drawerCards ∧
      (onMouseUp s y)._initialized = s._initialized ∧ (onMouseUp s y).pc = s.pc := by
  simp only [onMouseUp, _openDrawer, _closeDrawer, _resetDragging]
  split_ifs <;> exact ⟨rfl, rfl, rfl, rfl, rfl⟩

theorem dispatchMouseMove_frame (y : Int) (n : Nat) :
    ∀ s : PullDownCard, (dispatchMouseMove y n s)._hass = s._hass ∧
      (dispatchMouseMove y n s)._mainCard = s._mainCard ∧
      (dispatchMouseMove y n s)._drawerCards = s._drawerCards ∧
      (dispatchMouseMove y n s)._initialized = s._initialized ∧
      (dispatchMouseMove y n s).pc = s.pc := by
  induction n with
  | zero => intro s; exact ⟨rfl, rfl, rfl, rfl, rfl⟩
  | succ n ih =>
      intro s
      obtain ⟨a, b, c, d, e⟩ := ih (onMouseMove s y)
      obtain ⟨a', b', c', d', e'⟩ := onMouseMove_frame s y
      exact ⟨a.trans a', b.trans b', c.trans c', d.trans d', e.trans e'⟩

theorem dispatchMouseUp_frame (y : Int) (n : Nat) :
    ∀ s : PullDownCard, (dispatchMouseUp y n s)._hass = s._hass ∧
      (dispatchMouseUp y n s)._mainCard = s._mainCard ∧
      (dispatchMouseUp y n s)._drawerCards = s._drawerCards ∧
      (dispatchMouseUp y n s)._initialized = s._initialized ∧
      (dispatchMouseUp y n s).pc = s.pc := by
  induction n with
  | zero => intro s; exact ⟨rfl, rfl, rfl, rfl, rfl⟩
  | succ n ih =>
      intro s
      obtain ⟨a, b, c, d, e⟩ := ih (onMouseUp s y)
      obtain ⟨a', b', c', d', e'⟩ := onMouseUp_frame s y
      exact ⟨a.trans a', b.trans b', c.trans c', d.trans d', e.trans e'⟩

/-- Pointer, key and timer events leave the shared state, the slots and the build
progress alone. -/
theorem step_gesture_frame (s : PullDownCard) (ev : Event)
    (h1 : ∀ c, ev ≠ .setConfig c) (h2 : ∀ v, ev ≠ .setHass v) (h3 : ev ≠ .helpersLoaded)
    (h4 : ∀ r, ev ≠ .cardSettled r) :
    (step s ev)._hass = s._hass ∧ (step s ev)._mainCard = s._mainCard ∧
      (step s ev)._drawerCards = s._drawerCards ∧
      (step s ev)._initialized = s._initialized ∧ (step s ev).pc = s.pc := by
  cases ev with
  | setConfig c => exact absurd rfl (h1 c)
  | setHass v => exact absurd rfl (h2 v)
  | helpersLoaded => exact absurd rfl h3
  | cardSettled r => exact absurd rfl (h4 r)
  | mouseMove y => exact dispatchMouseMove_frame y _ s
  | mouseUp y => exact dispatchMouseUp_frame y _ s
  | timer =>
      simp only [step, onTimer]
      split <;> exact ⟨rfl, rfl, rfl, rfl, rfl⟩
  | _ =>
      simp only [step, _onTouchStart, _onTouchMove, _onTouchEnd, _onMouseDown,
        _onDrawerTouchStart, _onDrawerTouchMove, _onDrawerTouchEnd, onKeydown, onPointerDown,
        onPointerUp, _updateDrawerHeight, _updateDrawerPosition, _openDrawer, _closeDrawer,
        _resetDragging]
      split_ifs <;> exact ⟨rfl, rfl, rfl, rfl, rfl⟩

theorem drawerLoop_frame (s : PullDownCard) (items : List Atom) :
    (drawerLoop s items)._hass = s._hass ∧ (drawerLoop s items)._mainCard = s._mainCard ∧
      (drawerLoop s items)._drawerCards = s._drawerCards := by
  cases items <;> exact ⟨rfl, rfl, rfl⟩

theorem resumeHelpers_frame (s : PullDownCard) :
    (resumeHelpers s)._hass = s._hass ∧ (resumeHelpers s)._mainCard = s._mainCard ∧
      (resumeHelpers s)._drawerCards = s._drawerCards ∧
      (resumeHelpers s)._initialized = s._initialized := by
  unfold resumeHelpers
  split <;> exact ⟨rfl, rfl, rfl, rfl⟩

theorem setConfig_frame (s s1 : PullDownCard) (config : ConfigInput)
    (h : setConfig s config = .ok s1) :
    s1._hass = s._hass ∧ s1._mainCard = s._mainCard ∧ s1._drawerCards = s._drawerCards ∧
      s1._initialized = s._initialized := by
  have hm : config.main_card.truthy = true := by
    cases hm : config.main_card.truthy
    · obtain ⟨m, hm'⟩ := setConfig_error s config (Or.inl hm)
      rw [hm'] at h; cases h
    · rfl
  have hd : config.drawer_cards.isArray = true := by
    cases hd : config.drawer_cards.isArray
    · obtain ⟨m, hm'⟩ := setConfig_error s config (Or.inr hd)
      rw [hm'] at h; cases h
    · rfl
  rw [setConfig_ok s config hm hd] at h
  injection h with h
  rw [← h]
  split
  · exact buildCards_frame _
  · exact ⟨rfl, rfl, rfl, rfl⟩

theorem slotsAgree_congr (s t : PullDownCard) (h1 : t._hass = s._hass)
    (h2 : t._mainCard = s._mainCard) (h3 : t._drawerCards = s._drawerCards) :
    slotsAgree t = slotsAgree s := by
  unfold slotsAgree
  rw [h1, h2, h3]

theorem agrees_builtCard (h : JSVal) (r : FactoryResult) :
    Card.agrees h (builtCard h r) = true := by
  cases r with
  | ok el => simp [builtCard, Card.agrees, Card.ofElement, Card.assignHass, Card.isLive]
  | error m => simp [builtCard, Card.agrees, _createErrorCard, Card.isLive]

theorem forwardHass_of_agrees (h v : JSVal) (c : Card) (hc : Card.agrees h c = true) :
    forwardHass v c = (if c.isLive then c.assignHass v else c) := by
  unfold Card.agrees at hc
  unfold forwardHass
  cases hl : c.isLive <;> cases hh : c.hasHass <;> simp [hl, hh] at hc ⊢

theorem agrees_forwardHass (h v : JSVal) (c : Card) (hc : Card.agrees h c = true) :
    Card.agrees v (forwardHass v c) = true := by
  rw [forwardHass_of_agrees h v c hc]
  unfold Card.agrees at hc ⊢
  cases hl : c.isLive
  · simpa [hl] using hc
  · simp [hl, Card.assignHass, Card.isLive] at hc ⊢
    simpa [Card.isLive] using hl

theorem slotsAgree_main (s : PullDownCard) (h : slotsAgree s = true) (c : Card)
    (hc : s._mainCard = some c) : Card.agrees s._hass c = true := by
  unfold slotsAgree at h
  rw [hc] at h
  simp only [Option.all_some, Bool.and_eq_true] at h
  exact h.1

theorem slotsAgree_drawer (s : PullDownCard) (h : slotsAgree s = true) (c : Card)
    (hc : c ∈ s._drawerCards) : Card.agrees s._hass c = true := by
  unfold slotsAgree at h
  simp only [Bool.and_eq_true, List.all_eq_true] at h
  exact h.2 c hc

theorem slotsAgree_intro (s : PullDownCard)
    (hm : ∀ c, s._mainCard = some c → Card.agrees s._hass c = true)
    (hd : ∀ c ∈ s._drawerCards, Card.agrees s._hass c = true) : slotsAgree s = true := by
  unfold slotsAgree
  simp only [Bool.and_eq_true, List.all_eq_true]
  refine ⟨?_, hd⟩
  cases hc : s._mainCard with
  | none => rfl
  | some c => simpa using hm c hc

theorem slotsAgree_hassPropagate (s : PullDownCard) (v : JSVal) (h : slotsAgree s = true) :
    slotsAgree (hassPropagate s v) = true := by
  apply slotsAgree_intro
  · intro c hc
    simp only [hassPropagate, Option.map_eq_some'] at hc
    obtain ⟨c0, hc0, rfl⟩ := hc
    exact agrees_forwardHass s._hass v c0 (slotsAgree_main s h c0 hc0)
  · intro c hc
    simp only [hassPropagate, List.mem_map] at hc
    obtain ⟨c0, hc0, rfl⟩ := hc
    exact agrees_forwardHass s._hass v c0 (slotsAgree_drawer s h c0 hc0)

theorem slotsAgree_resumeCard (s : PullDownCard) (r : FactoryResult)
    (h : slotsAgree s = true) : slotsAgree (resumeCard s r) = true := by
  unfold resumeCard
  split
  · have h1 : slotsAgree { s with _mainCard := some (builtCard s._hass r), _drawerCards := [] }
        = true := by
      apply slotsAgree_intro
      · intro c hc
        simp only [Option.some.injEq] at hc
        subst hc
        exact agrees_builtCard _ r
      · intro c hc
        simp at hc
    simp only
    split
    · split
      · obtain ⟨a, b, c⟩ := drawerLoop_frame
          { s with _mainCard := some (builtCard s._hass r), _drawerCards := [] } ‹_›
        rw [slotsAgree_congr _ _ a b c]
        exact h1
      · exact h1
    · exact h1
  · obtain ⟨a, b, c⟩ := drawerLoop_frame
      { s with _drawerCards := s._drawerCards ++ [builtCard s._hass r] } ‹_›
    rw [slotsAgree_congr _ _ a b c]
    apply slotsAgree_intro
    · intro c hc
      exact slotsAgree_main s h c hc
    · intro c hc
      simp only [List.mem_append, List.mem_singleton] at hc
      rcases hc with hc | hc
      · exact slotsAgree_drawer s h c hc
      · subst hc
        exact agrees_builtCard _ r
  · exact h

/-- Every event keeps the panels in agreement with the widget's latest shared state. -/
theorem step_slotsAgree (s : PullDownCard) (ev : Event) (h : slotsAgree s = true) :
    slotsAgree (step s ev) = true := by
  by_cases h1 : ∃ c, ev = .setConfig c
  · obtain ⟨c, rfl⟩ := h1
    simp only [step]
    split
    · next s1 hs =>
        obtain ⟨a, b, c', _⟩ := setConfig_frame s s1 c hs
        rw [slotsAgree_congr _ _ a b c']
        exact h
    · exact h
  by_cases h2 : ∃ v, ev = .setHass v
  · obtain ⟨v, rfl⟩ := h2
    simp only [step, setHass]
    split
    · obtain ⟨a, b, c, _⟩ := buildCards_frame (hassPropagate s v)
      rw [slotsAgree_congr _ _ a b c]
      exact slotsAgree_hassPropagate s v h
    · exact slotsAgree_hassPropagate s v h
  by_cases h3 : ev = .helpersLoaded
  · subst h3
    obtain ⟨a, b, c, _⟩ := resumeHelpers_frame s
    simp only [step]
    rw [slotsAgree_congr _ _ a b c]
    exact h
  by_cases h4 : ∃ r, ev = .cardSettled r
  · obtain ⟨r, rfl⟩ := h4
    exact slotsAgree_resumeCard s r h
  · obtain ⟨a, b, c, _, _⟩ := step_gesture_frame s ev
      (fun c hc => h1 ⟨c, hc⟩) (fun v hv => h2 ⟨v, hv⟩) h3 (fun r hr => h4 ⟨r, hr⟩)
    rw [slotsAgree_congr _ _ a b c]
    exact h

theorem run_slotsAgree (evs : List Event) :
    ∀ s : PullDownCard, slotsAgree s = true → slotsAgree (run s evs) = true := by
  induction evs with
  | nil => intro s h; exact h
  | cons ev evs ih => intro s h; exact ih _ (step_slotsAgree s ev h)

theorem resumeCard_hass (s : PullDownCard) (r : FactoryResult) :
    (resumeCard s r)._hass = s._hass := by
  unfold resumeCard
  split
  · simp only
    split
    · split
      · exact (drawerLoop_frame _ _).1
      · rfl
    · rfl
  · exact (drawerLoop_frame _ _).1
  · rfl

theorem step_hass (s : PullDownCard) (ev : Event) :
    (step s ev)._hass = lastHass s._hass [ev] := by
  cases ev with
  | setHass v =>
      show (setHass s v)._hass = v
      unfold setHass
      simp only
      split
      · exact (buildCards_frame _).1
      · rfl
  | setConfig c =>
      show (step s (.setConfig c))._hass = s._hass
      simp only [step]
      split
      · next s1 hs => exact (setConfig_frame s s1 c hs).1
      · rfl
  | helpersLoaded => exact (resumeHelpers_frame s).1
  | cardSettled r => exact resumeCard_hass s r
  | _ =>
      exact (step_gesture_frame s _ (by intro c h; cases h) (by intro v h; cases h)
        (by intro h; cases h) (by intro r h; cases h)).1

theorem lastHass_cons (h : JSVal) (ev : Event) (evs : List Event) :
    lastHass h (ev :: evs) = lastHass (lastHass h [ev]) evs := rfl

/-- The widget holds the shared-state value it received last. -/
theorem run_hass (evs : List Event) :
    ∀ s : PullDownCard, (run s evs)._hass = lastHass s._hass evs := by
  induction evs with
  | nil => intro s; rfl
  | cons ev evs ih =>
      intro s
      rw [run_cons, ih, step_hass]
      rfl

/-! ## The main slot is filled once the build is past it -/

theorem mainFilled_of (s t : PullDownCard) (h : mainFilled s = true)
    (hi : t._initialized = s._initialized)
    (hm : s._mainCard.isSome = true → t._mainCard.isSome = true)
    (hp : t.pc = s.pc ∨ t.pc = .awaitHelpers ∨ t.pc = .awaitMain ∨ t.pc = .idle) :
    mainFilled t = true := by
  unfold mainFilled pastMain at h ⊢
  rw [hi]
  cases hinit : s._initialized
  · rcases hp with hp | hp | hp | hp
    · rw [hp]
      cases hs : s.pc <;> simp [hs, hinit] at h ⊢
      exact hm h
    all_goals simp [hp]
  · simp [hinit] at h ⊢
    exact hm h

theorem buildCards_pc (s : PullDownCard) :
    (_buildCards s).pc = s.pc ∨ (_buildCards s).pc = .awaitHelpers := by
  unfold _buildCards
  split_ifs
  · exact Or.inl rfl
  · exact Or.inl rfl
  · exact Or.inr rfl

theorem mainFilled_finishBuild (s : PullDownCard) (h : s._mainCard.isSome = true) :
    mainFilled (finishBuild s) = true := by
  simp [mainFilled, finishBuild, _render, h]

theorem mainFilled_drawerLoop (s : PullDownCard) (items : List Atom)
    (h : s._mainCard.isSome = true) : mainFilled (drawerLoop s items) = true := by
  cases items with
  | nil => exact mainFilled_finishBuild s h
  | cons d rest => simp [mainFilled, drawerLoop, h]

theorem step_mainFilled (s : PullDownCard) (ev : Event) (h : mainFilled s = true) :
    mainFilled (step s ev) = true := by
  have hg : (∀ c, ev ≠ .setConfig c) → (∀ v, ev ≠ .setHass v) → ev ≠ .helpersLoaded →
      (∀ r, ev ≠ .cardSettled r) → mainFilled (step s ev) = true := by
    intro h1 h2 h3 h4
    obtain ⟨_, b, _, d, e⟩ := step_gesture_frame s ev h1 h2 h3 h4
    exact mainFilled_of s _ h d (by rw [b]; exact id) (Or.inl e)
  cases ev with
  | setConfig c =>
      simp only [step]
      split
      · next s1 hs =>
          have hm : c.main_card.truthy = true := by
            cases hm : c.main_card.truthy
            · obtain ⟨m, hm'⟩ := setConfig_error s c (Or.inl hm)
              rw [hm'] at hs; cases hs
            · rfl
          have hd : c.drawer_cards.isArray = true := by
            cases hd : c.drawer_cards.isArray
            · obtain ⟨m, hm'⟩ := setConfig_error s c (Or.inr hd)
              rw [hm'] at hs; cases hs
            · rfl
          rw [setConfig_ok s c hm hd] at hs
          injection hs with hs
          rw [← hs]
          split
          · obtain ⟨_, b, _, d⟩ := buildCards_frame { s with _config := some (storedConfig c) }
            refine mainFilled_of s _ h d (by rw [b]; exact id) ?_
            rcases buildCards_pc { s with _config := some (storedConfig c) } with hp | hp
            · exact Or.inl hp
            · exact Or.inr (Or.inl hp)
          · exact mainFilled_of s _ h rfl id (Or.inl rfl)
      · exact h
  | setHass v =>
      have hp : mainFilled (hassPropagate s v) = true :=
        mainFilled_of s _ h rfl (by intro hm; simpa [hassPropagate] using hm) (Or.inl rfl)
      simp only [step, setHass]
      split
      · obtain ⟨_, b, _, d⟩ := buildCards_frame (hassPropagate s v)
        refine mainFilled_of _ _ hp d (by rw [b]; exact id) ?_
        rcases buildCards_pc (hassPropagate s v) with hq | hq
        · exact Or.inl hq
        · exact Or.inr (Or.inl hq)
      · exact hp
  | helpersLoaded =>
      obtain ⟨_, b, _, d⟩ := resumeHelpers_frame s
      show mainFilled (resumeHelpers s) = true
      refine mainFilled_of s _ h d (by rw [b]; exact id) ?_
      simp only [resumeHelpers]
      split
      · exact Or.inr (Or.inr (Or.inl rfl))
      · exact Or.inr (Or.inr (Or.inr rfl))
      · exact Or.inl rfl
  | cardSettled r =>
      simp only [step, resumeCard]
      split
      · split
        · split
          · exact mainFilled_drawerLoop _ _ rfl
          · simp [mainFilled]
        · simp [mainFilled]
      · next rest hpc =>
          apply mainFilled_drawerLoop
          simpa [mainFilled, pastMain, hpc] using h
      · exact h
  | _ =>
      exact hg (by intro c h; cases h) (by intro v h; cases h) (by intro h; cases h)
        (by intro r h; cases h)

theorem run_mainFilled (evs : List Event) :
    ∀ s : PullDownCard, mainFilled s = true → mainFilled (run s evs) = true := by
  induction evs with
  | nil => intro s h; exact h
  | cons ev evs ih => intro s h; exact ih _ (step_mainFilled s ev h)

/-! ## Shared state: delivery after the build, and no lost update -/

theorem setHass_eq_of_initialized (s : PullDownCard) (v : JSVal)
    (h : s._initialized = true) : setHass s v = hassPropagate s v := by
  unfold setHass
  simp [hassPropagate, h]

/-- C4: in every state the widget reaches in which the build has completed, assigning
`hass = v` stores `v`, the main slot is filled and its panel receives `v` when it is a
live element, every live drawer panel receives `v`, and every error card, main or
drawer, is left exactly as it was. -/
theorem hass_delivery (evs : List Event) (v : JSVal)
    (hb : (run init evs)._initialized = true) :
    (setHass (run init evs) v)._hass = v ∧
      (∃ c, (run init evs)._mainCard = some c ∧
        (setHass (run init evs) v)._mainCard
          = some (if c.isLive then c.assignHass v else c)) ∧
      (setHass (run init evs) v)._drawerCards =
        (run init evs)._drawerCards.map (fun c => if c.isLive then c.assignHass v else c) ∧
      (∀ c ∈ (setHass (run init evs) v)._drawerCards, c.isLive = true → c.hass = v) := by
  have hagree : slotsAgree (run init evs) = true := run_slotsAgree evs init rfl
  have hfilled : mainFilled (run init evs) = true := run_mainFilled evs init rfl
  have hmap : (run init evs)._drawerCards.map (forwardHass v) =
      (run init evs)._drawerCards.map (fun c => if c.isLive then c.assignHass v else c) := by
    apply List.map_congr_left
    intro c hc
    exact forwardHass_of_agrees _ v c (slotsAgree_drawer _ hagree c hc)
  rw [setHass_eq_of_initialized _ v hb]
  refine ⟨rfl, ?_, hmap, ?_⟩
  · have hsome : (run init evs)._mainCard.isSome = true := by
      simpa [mainFilled, pastMain, hb] using hfilled
    obtain ⟨c, hc⟩ := Option.isSome_iff_exists.mp hsome
    refine ⟨c, hc, ?_⟩
    simp only [hassPropagate, hc, Option.map_some']
    rw [forwardHass_of_agrees _ v c (slotsAgree_main _ hagree c hc)]
  · intro c hc hl
    have hc' : c ∈ (run init evs)._drawerCards.map
        (fun c => if c.isLive then c.assignHass v else c) := by
      rw [← hmap]; exact hc
    obtain ⟨c0, _, rfl⟩ := List.mem_map.mp hc'
    cases h0 : c0.isLive
    · simp [h0] at hl
    · simp [h0, Card.assignHass]

/-- C4, witness: after scenario 1 the panels are [A live, B error card, C live]; a new
shared state reaches A and C and leaves B's error card as it was. -/
theorem hass_delivery_witness :
    (run init scenario1)._initialized = true ∧
      (setHass (run init scenario1) (hassObj 7))._mainCard
        = some { body := .element 1, hasHass := true, hass := hassObj 7 } ∧
      (setHass (run init scenario1) (hassObj 7))._drawerCards
        = [_createErrorCard "boom",
            { body := .element 3, hasHass := true, hass := hassObj 7 }] ∧
      (setHass (run init scenario1) (hassObj 7))._drawerCards =
        (run init scenario1)._drawerCards.map
          (fun c => if c.isLive then c.assignHass (hassObj 7) else c) :=
  ⟨rfl, by decide, by decide, (hass_delivery scenario1 (hassObj 7) rfl).2.2.1⟩

/-- C5: whatever the interleaving of `setConfig`, `hass` assignments, settled
constructions and pointer events, in every state the widget reaches, and so at the
moment the build completes, the widget, its main panel when live, and every live
drawer panel hold the shared-state value the widget received last. -/
theorem no_update_lost (evs : List Event) :
    (run init evs)._hass = lastHass JSVal.nul evs ∧
      (∀ c, (run init evs)._mainCard = some c → c.isLive = true →
        c.hass = lastHass JSVal.nul evs) ∧
      (∀ c ∈ (run init evs)._drawerCards, c.isLive = true →
        c.hass = lastHass JSVal.nul evs) := by
  have hagree : slotsAgree (run init evs) = true := run_slotsAgree evs init rfl
  have hh : (run init evs)._hass = lastHass JSVal.nul evs := run_hass evs init
  have key : ∀ c : Card, Card.agrees (run init evs)._hass c = true → c.isLive = true →
      c.hass = lastHass JSVal.nul evs := by
    intro c hc hl
    unfold Card.agrees at hc
    simp only [hl, if_true, Bool.and_eq_true, decide_eq_true_eq] at hc
    rw [hc.2, hh]
  exact ⟨hh, fun c hc hl => key c (slotsAgree_main _ hagree c hc) hl,
    fun c hc hl => key c (slotsAgree_drawer _ hagree c hc) hl⟩

/-- C5, witness: a build of `{A, [B, C]}` with a shared-state update before each
construction settles ends with A, B and C all holding the last value received. -/
theorem no_update_lost_witness :
    (run init interleaved)._initialized = true ∧
      lastHass JSVal.nul interleaved = hassObj 104 ∧
      (run init interleaved)._mainCard
        = some { body := .element 1, hasHass := true, hass := hassObj 104 } ∧
      (∀ c ∈ (run init interleaved)._drawerCards, c.isLive = true →
        c.hass = lastHass JSVal.nul interleaved) :=
  ⟨rfl, rfl, by decide, (no_update_lost interleaved).2.2⟩

/-! ## Opening surface: the threshold rule -/

theorem openingDrag_touchStart (s : PullDownCard) (cfg : Config) (y0 H : Int)
    (hi : s._initialized = true) (hc : s._isOpen = false) (hcfg : s._config = some cfg) :
    OpeningDrag cfg y0 (step s (.touchStart y0 H)) := by
  simp [step, _onTouchStart, _updateDrawerHeight, OpeningDrag, hi, hc, hcfg]

theorem openingDrag_touchMove (s : PullDownCard) (cfg : Config) (y0 y : Int)
    (h : OpeningDrag cfg y0 s) : OpeningDrag cfg y0 (step s (.touchMove y)) := by
  obtain ⟨hi, hc, hd, hs, hcfg⟩ := h
  simp only [step, _onTouchMove, _updateDrawerPosition]
  split_ifs <;> exact ⟨hi, hc, hd, hs, hcfg⟩

theorem openingDrag_touchMoves (cfg : Config) (y0 : Int) (moves : List Int) :
    ∀ s : PullDownCard, OpeningDrag cfg y0 s →
      OpeningDrag cfg y0 (run s (moves.map .touchMove)) := by
  induction moves with
  | nil => intro s h; exact h
  | cons y moves ih => intro s h; exact ih _ (openingDrag_touchMove s cfg y0 y h)

/-- A touch release after a last move at displacement `d > 0` from the origin. -/
theorem touch_release (s : PullDownCard) (cfg : Config) (y0 d : Int)
    (h : OpeningDrag cfg y0 s) (hd : 0 < d) :
    ((run s [.touchMove (y0 + d), .touchEnd])._isOpen = true ↔ cfg.swipe_threshold < d) := by
  obtain ⟨hi, hc, hdr, hs, hcfg⟩ := h
  have h1 : step s (.touchMove (y0 + d)) = _updateDrawerPosition s d false := by
    simp [step, _onTouchMove, hi, hc, hdr, hs, hd]
  rw [run_cons, run_cons, run_nil, h1]
  simp only [step, _updateDrawerPosition, _onTouchEnd, hi, hdr, hs, swipeThreshold, hcfg,
    _openDrawer, _closeDrawer, _resetDragging]
  have e : y0 + d - y0 = d := by omega
  simp only [Bool.false_eq_true, if_false, Bool.not_true, if_true, e]
  split_ifs with ht
  · simpa using ht
  · simp only [Bool.false_eq_true, false_iff, not_lt]
    omega

theorem openingDrag_mouseDown (s : PullDownCard) (cfg : Config) (y0 H : Int)
    (hi : s._initialized = true) (hc : s._isOpen = false) (hcfg : s._config = some cfg) :
    OpeningDrag cfg y0 (step s (.mouseDown y0 H)) ∧
      0 < (step s (.mouseDown y0 H)).mouseListeners := by
  simp [step, _onMouseDown, _updateDrawerHeight, OpeningDrag, hi, hc, hcfg]

theorem openingDrag_onMouseMove (s : PullDownCard) (cfg : Config) (y0 y : Int)
    (h : OpeningDrag cfg y0 s) :
    OpeningDrag cfg y0 (onMouseMove s y) ∧
      (onMouseMove s y).mouseListeners = s.mouseListeners := by
  obtain ⟨hi, hc, hd, hs, hcfg⟩ := h
  simp only [onMouseMove, _updateDrawerPosition]
  split_ifs <;> exact ⟨⟨hi, hc, hd, hs, hcfg⟩, rfl⟩

theorem openingDrag_dispatchMouseMove (cfg : Config) (y0 y : Int) (n : Nat) :
    ∀ s : PullDownCard, OpeningDrag cfg y0 s →
      OpeningDrag cfg y0 (dispatchMouseMove y n s) ∧
        (dispatchMouseMove y n s).mouseListeners = s.mouseListeners := by
  induction n with
  | zero => intro s h; exact ⟨h, rfl⟩
  | succ n ih =>
      intro s h
      obtain ⟨h1, h2⟩ := openingDrag_onMouseMove s cfg y0 y h
      obtain ⟨h3, h4⟩ := ih _ h1
      exact ⟨h3, h4.trans h2⟩

theorem openingDrag_mouseMoves (cfg : Config) (y0 : Int) (moves : List Int) :
    ∀ s : PullDownCard, OpeningDrag cfg y0 s → 0 < s.mouseListeners →
      OpeningDrag cfg y0 (run s (moves.map .mouseMove)) ∧
        0 < (run s (moves.map .mouseMove)).mouseListeners := by
  induction moves with
  | nil => intro s h hl; exact ⟨h, hl⟩
  | cons y moves ih =>
      intro s h hl
      obtain ⟨h1, h2⟩ := openingDrag_dispatchMouseMove cfg y0 y s.mouseListeners s h
      exact ih _ h1 (h2.symm ▸ hl)

/-- With `_dragging` clear every registered `onMouseUp` closure returns at once. -/
theorem dispatchMouseUp_idle (y : Int) (n : Nat) :
    ∀ s : PullDownCard, s._dragging = false → dispatchMouseUp y n s = s := by
  induction n with
  | zero => intro s _; rfl
  | succ n ih =>
      intro s h
      have h1 : onMouseUp s y = s := by simp [onMouseUp, h]
      rw [dispatchMouseUp, h1]
      exact ih s h

/-- With `_dragging` set and at least one listener pair, a `mouseup` is handled by the
first closure and by it alone. -/
theorem dispatchMouseUp_dragging (s : PullDownCard) (y : Int) (hd : s._dragging = true)
    (hl : 0 < s.mouseListeners) :
    step s (.mouseUp y) = onMouseUp s y := by
  obtain ⟨n, hn⟩ := Nat.exists_eq_succ_of_ne_zero (Nat.pos_iff_ne_zero.mp hl)
  show dispatchMouseUp y s.mouseListeners s = onMouseUp s y
  rw [hn, dispatchMouseUp]
  apply dispatchMouseUp_idle
  simp only [onMouseUp, hd, _openDrawer, _closeDrawer, _resetDragging, Bool.not_true,
    Bool.false_eq_true, if_false]
  split_ifs <;> rfl

/-- A mouse release at displacement `d` from the origin, after a last move there. -/
theorem mouse_release (s : PullDownCard) (cfg : Config) (y0 d : Int)
    (h : OpeningDrag cfg y0 s) (hl : 0 < s.mouseListeners) :
    ((run s [.mouseMove (y0 + d), .mouseUp (y0 + d)])._isOpen = true ↔
      cfg.swipe_threshold < d) := by
  obtain ⟨h1, h2⟩ := openingDrag_dispatchMouseMove cfg y0 (y0 + d) s.mouseListeners s h
  rw [run_cons, run_cons, run_nil]
  show (step (dispatchMouseMove (y0 + d) s.mouseListeners s) (.mouseUp (y0 + d)))._isOpen = true
    ↔ _
  obtain ⟨hi, hc, hdr, hs, hcfg⟩ := h1
  rw [dispatchMouseUp_dragging _ _ hdr (by rw [h2]; exact hl)]
  simp only [onMouseUp, hdr, hs, swipeThreshold, hcfg, _openDrawer, _closeDrawer,
    _resetDragging]
  have e : y0 + d - y0 = d := by omega
  simp only [Bool.not_true, Bool.false_eq_true, if_false, e]
  split_ifs with ht
  · simpa using ht
  · simp only [Bool.false_eq_true, false_iff, not_lt]
    omega

/-- C6: for every threshold, every handle-zone gesture that starts while the drawer is
CLOSED, by touch or by mouse, and whose last move and release are at displacement
`d > 0` from the press point (after any moves in between) ends OPEN exactly when
`d` exceeds the threshold. -/
theorem opening_threshold (s : PullDownCard) (cfg : Config) (y0 H d : Int)
    (moves : List Int) (hi : s._initialized = true) (hc : s._isOpen = false)
    (hcfg : s._config = some cfg) (hd : 0 < d) :
    ((run s (.touchStart y0 H ::
        (moves.map .touchMove ++ [.touchMove (y0 + d), .touchEnd])))._isOpen = true
      ↔ cfg.swipe_threshold < d) ∧
    ((run s (.mouseDown y0 H ::
        (moves.map .mouseMove ++ [.mouseMove (y0 + d), .mouseUp (y0 + d)])))._isOpen = true
      ↔ cfg.swipe_threshold < d) := by
  constructor
  · rw [run_cons, run_append]
    exact touch_release _ cfg y0 d
      (openingDrag_touchMoves cfg y0 moves _ (openingDrag_touchStart s cfg y0 H hi hc hcfg)) hd
  · rw [run_cons, run_append]
    obtain ⟨h1, h2⟩ := openingDrag_mouseDown s cfg y0 H hi hc hcfg
    obtain ⟨h3, h4⟩ := openingDrag_mouseMoves cfg y0 moves _ h1 h2
    exact mouse_release _ cfg y0 d h3 h4

/-- C6, witness: with the default threshold of 50 a handle-zone drag of 60px opens the
drawer, a drag of exactly 50px leaves it closed and a drag of 51px opens it, by touch
and by mouse alike. -/
theorem opening_threshold_witness :
    mounted._isOpen = false ∧
      (run mounted [.touchStart 10 400, .touchMove 30, .touchMove 70, .touchEnd])._isOpen
        = true ∧
      (run mounted [.touchStart 10 400, .touchMove 60, .touchEnd])._isOpen = false ∧
      (run mounted [.mouseDown 10 400, .mouseMove 60, .mouseUp 60])._isOpen = false ∧
      (run mounted [.mouseDown 10 400, .mouseMove 61, .mouseUp 61])._isOpen = true :=
  ⟨rfl,
    (opening_threshold mounted (storedConfig configA) 10 400 60 [30] rfl rfl rfl
      (by decide)).1.mpr (by decide),
    by
      have h := (opening_threshold mounted (storedConfig configA) 10 400 50 [] rfl rfl rfl
        (by decide)).1
      cases hv : (run mounted [.touchStart 10 400, .touchMove 60, .touchEnd])._isOpen
      · rfl
      · exact absurd (h.mp hv) (by decide),
    by decide,
    (opening_threshold mounted (storedConfig configA) 10 400 51 [] rfl rfl rfl
      (by decide)).2.mpr (by decide)⟩

/-! ## Closing surface: what the release compares -/

theorem closingDrag_touchStart (s : PullDownCard) (cfg : Config) (y0 : Int)
    (hi : s._initialized = true) (ho : s._isOpen = true) (hcfg : s._config = some cfg) :
    ClosingDrag cfg y0 s._drawerHeight (step s (.drawerTouchStart y0)) := by
  simp [step, _onDrawerTouchStart, ClosingDrag, hi, ho, hcfg]

/-- What the code does on the closing surface: after a last move at displacement
`d < 0`, `_currentY - _startY` is the visible extent `H + d`, not `d`, so the release
closes exactly when `H + d` is below minus the threshold. -/
theorem closing_release (s : PullDownCard) (cfg : Config) (y0 H d : Int)
    (h : ClosingDrag cfg y0 H s) (hd : d < 0) :
    ((run s [.drawerTouchMove (y0 + d), .drawerTouchEnd])._isOpen = false ↔
      H + d < -cfg.swipe_threshold) := by
  obtain ⟨hi, ho, hdr, hs, hH, hcfg⟩ := h
  have h1 : step s (.drawerTouchMove (y0 + d)) =
      _updateDrawerPosition { s with _hasMoved := true } (H + d) true := by
    simp [step, _onDrawerTouchMove, hi, ho, hdr, hs, hH, hd]
  rw [run_cons, run_cons, run_nil, h1]
  simp only [step, _updateDrawerPosition, _onDrawerTouchEnd, hi, ho, hdr, hs, swipeThreshold,
    hcfg, _openDrawer, _closeDrawer, _resetDragging]
  have e : y0 + (H + d) - y0 = H + d := by omega
  simp only [Bool.not_true, Bool.false_eq_true, if_false, if_true, Bool.or_self, e]
  split_ifs with ht
  · simpa using ht
  · simp only [Bool.true_eq_false, false_iff, not_lt]
    omega

/-- C7, failing input: threshold 50, measured drawer extent 400, drawer OPEN; a
drawer-body touch drag of -60px (press at 300, last move at 240) is released and the
drawer is still OPEN, because the release compares 400 - 60 = 340 with -50. A drag of
-30px stays OPEN as the claim says. -/
theorem closing_drag_past_threshold_stays_open :
    opened._isOpen = true ∧ opened._drawerHeight = 400 ∧ swipeThreshold opened = 50 ∧
      (run opened [.drawerTouchStart 300, .drawerTouchMove 240, .drawerTouchEnd])._isOpen
        = true ∧
      (run opened [.drawerTouchStart 300, .drawerTouchMove 240])._currentY
          - (run opened [.drawerTouchStart 300, .drawerTouchMove 240])._startY = 340 ∧
      (run opened [.drawerTouchStart 300, .drawerTouchMove 270, .drawerTouchEnd])._isOpen
        = true := by
  decide

/-! ## Tap without drag -/

/-- What a tap does: a press with no move leaves `_currentY` as the last gesture left
it, and the release compares that stale value with the new origin. -/
theorem tap_resolution (s : PullDownCard) (cfg : Config) (y H : Int)
    (hi : s._initialized = true) (hcfg : s._config = some cfg) :
    (s._isOpen = false →
      ((run s [.touchStart y H, .touchEnd])._isOpen = true ↔
        cfg.swipe_threshold < s._currentY - y)) ∧
    (s._isOpen = true →
      ((run s [.drawerTouchStart y, .drawerTouchEnd])._isOpen = false ↔
        s._currentY - y < -cfg.swipe_threshold)) := by
  constructor
  · intro hc
    simp only [run_cons, run_nil, step, hi, _onTouchStart, hc, _updateDrawerHeight,
      _onTouchEnd, swipeThreshold, hcfg, _openDrawer, _closeDrawer, _resetDragging,
      Bool.false_eq_true, if_false, if_true, Bool.not_true]
    split_ifs with ht
    · simpa using ht
    · simp only [Bool.false_eq_true, false_iff, not_lt]
      omega
  · intro ho
    simp only [run_cons, run_nil, step, hi, _onDrawerTouchStart, ho, _onDrawerTouchEnd,
      swipeThreshold, hcfg, _openDrawer, _closeDrawer, _resetDragging, Bool.false_eq_true,
      if_false, if_true, Bool.not_true, Bool.or_self]
    split_ifs with ht
    · simpa using ht
    · simp only [Bool.true_eq_false, false_iff, not_lt]
      omega

/-- C8, failing input: the drawer was opened by a handle-zone drag from 600 to 700 and
closed again by the escape key; a tap on the handle zone at 600, press then release
with no move, now opens the drawer, because the release compares the stale `_currentY`
of 700 with the new origin. And with the drawer opened by a drag from 10 to 80, a tap
on the drawer body at 300 closes it. A mouse press and release at one point leaves the
drawer closed. -/
theorem tap_changes_settled_state :
    (run mounted [.touchStart 600 400, .touchMove 700, .touchEnd, .keydown "Escape"])._isOpen
        = false ∧
      (run mounted [.touchStart 600 400, .touchMove 700, .touchEnd, .keydown "Escape",
        .touchStart 600 400, .touchEnd])._isOpen = true ∧
      opened._isOpen = true ∧
      (run opened [.drawerTouchStart 300, .drawerTouchEnd])._isOpen = false ∧
      (run mounted [.touchStart 600 400, .touchMove 700, .touchEnd, .keydown "Escape",
        .mouseDown 600 400, .mouseUp 600])._isOpen = false := by
  decide

/-! ## Release and the end of a gesture -/

/-- The drawer-body release does nothing at all once the drawer is CLOSED, whatever
drag is in progress. -/
theorem onDrawerTouchEnd_closed (s : PullDownCard) (hc : s._isOpen = false) :
    _onDrawerTouchEnd s = s := by
  simp [_onDrawerTouchEnd, hc]

/-- C9, failing input: the drawer is OPEN, a drawer-body drag is in progress (press at
300, move to 250), the escape key closes the drawer, and the finger is lifted. The
release returns at its guard: `_dragging` is still set, the drawer and the overlay
still carry the `dragging` class, the inline transform and the inline opacity. -/
theorem release_after_escape_keeps_dragging :
    (run opened [.drawerTouchStart 300, .drawerTouchMove 250])._dragging = true ∧
      (run opened [.drawerTouchStart 300, .drawerTouchMove 250, .keydown "Escape"])._isOpen
        = false ∧
      (run opened [.drawerTouchStart 300, .drawerTouchMove 250, .keydown "Escape",
        .drawerTouchEnd])._dragging = true ∧
      (run opened [.drawerTouchStart 300, .drawerTouchMove 250, .keydown "Escape",
        .drawerTouchEnd]).drawer.classDragging = true ∧
      (run opened [.drawerTouchStart 300, .drawerTouchMove 250, .keydown "Escape",
        .drawerTouchEnd]).drawer.styleTransform = some (-50) ∧
      (run opened [.drawerTouchStart 300, .drawerTouchMove 250, .keydown "Escape",
        .drawerTouchEnd]).overlay.classDragging = true ∧
      (run opened [.drawerTouchStart 300, .drawerTouchMove 250, .keydown "Escape",
        .drawerTouchEnd]).overlay.styleOpacity.isSome = true := by
  decide

/-- A handle-zone release that commits CLOSED ends the drag but leaves the overlay's
inline visibility as the opening move set it. -/
theorem failed_open_keeps_visibility :
    (run mounted [.touchStart 10 400, .touchMove 40, .touchEnd])._isOpen = false ∧
      (run mounted [.touchStart 10 400, .touchMove 40, .touchEnd])._dragging = false ∧
      (run mounted [.touchStart 10 400, .touchMove 40, .touchEnd]).overlay.styleVisibility
        = "visible" := by
  decide

/-- The handle-zone release, the sibling of the drawer-body release, has no guard on
the settled state: whenever a drag is in progress it clears `_dragging`, both
`dragging` classes, the inline transform and the inline opacity. -/
theorem onTouchEnd_resets (s : PullDownCard) (hd : s._dragging = true) :
    (_onTouchEnd s)._dragging = false ∧ (_onTouchEnd s).drawer.classDragging = false ∧
      (_onTouchEnd s).drawer.styleTransform = none ∧
      (_onTouchEnd s).overlay.classDragging = false ∧
      (_onTouchEnd s).overlay.styleOpacity = none := by
  unfold _onTouchEnd
  rw [hd]
  simp only [_openDrawer, _closeDrawer, _resetDragging, Bool.not_true, Bool.false_eq_true,
    if_false]
  split_ifs <;> simp

/-- The drawer-body release does the same while the drawer is still OPEN. -/
theorem onDrawerTouchEnd_resets (s : PullDownCard) (hd : s._dragging = true)
    (ho : s._isOpen = true) :
    (_onDrawerTouchEnd s)._dragging = false ∧
      (_onDrawerTouchEnd s).drawer.classDragging = false ∧
      (_onDrawerTouchEnd s).drawer.styleTransform = none ∧
      (_onDrawerTouchEnd s).overlay.classDragging = false ∧
      (_onDrawerTouchEnd s).overlay.styleOpacity = none := by
  unfold _onDrawerTouchEnd
  rw [hd, ho]
  simp only [_openDrawer, _closeDrawer, _resetDragging, Bool.not_true, Bool.false_eq_true,
    if_false, Bool.or_self]
  split_ifs <;> simp

/-! ## A second press during a drag -/

/-- C10, counterexample: with a handle-zone drag in progress (press at 10, move to 40)
a further press at 40 moves the captured origin `_startY` from 10 to 40, by touch and
by mouse; the mouse press also registers a second listener pair, one of which is still
registered after the release. A further press on the drawer body during a closing drag
moves the origin from 300 to 250. -/
theorem second_press_recaptures_origin :
    ((run mounted [.touchStart 10 400, .touchMove 40])._dragging = true ∧
      (run mounted [.touchStart 10 400, .touchMove 40])._startY = 10 ∧
      (run mounted [.touchStart 10 400, .touchMove 40, .touchStart 40 400])._startY = 40) ∧
    ((run mounted [.mouseDown 10 400, .mouseMove 40])._dragging = true ∧
      (run mounted [.mouseDown 10 400, .mouseMove 40])._startY = 10 ∧
      (run mounted [.mouseDown 10 400, .mouseMove 40]).mouseListeners = 1 ∧
      (run mounted [.mouseDown 10 400, .mouseMove 40, .mouseDown 40 400])._startY = 40 ∧
      (run mounted [.mouseDown 10 400, .mouseMove 40, .mouseDown 40 400]).mouseListeners = 2 ∧
      (run mounted [.mouseDown 10 400, .mouseMove 40, .mouseDown 40 400,
        .mouseUp 40]).mouseListeners = 1) ∧
    ((run opened [.drawerTouchStart 300, .drawerTouchMove 250])._dragging = true ∧
      (run opened [.drawerTouchStart 300, .drawerTouchMove 250])._startY = 300 ∧
      (run opened [.drawerTouchStart 300, .drawerTouchMove 250,
        .drawerTouchStart 250])._startY = 250) := by
  decide

/-- C10, amended: with a drag in progress, a further press on the handle zone (drawer
CLOSED) is not ignored: it sets `_startY` to the press position and `_drawerHeight` to
the new measurement, a mouse press also adds one listener pair, and nothing else
changes; a further press on the drawer body (drawer OPEN) sets `_startY` to the press
position, clears `_hasMoved` and changes nothing else. A press is ignored only on the
surface that does not match the settled state. -/
theorem second_press_effect (s : PullDownCard) (hi : s._initialized = true)
    (hd : s._dragging = true) :
    (s._isOpen = false → ∀ y H : Int,
      step s (.touchStart y H) = { s with _startY := y, _drawerHeight := H } ∧
      step s (.mouseDown y H) =
        { s with _startY := y, _drawerHeight := H, mouseListeners := s.mouseListeners + 1 } ∧
      step s (.drawerTouchStart y) = s) ∧
    (s._isOpen = true → ∀ y H : Int,
      step s (.drawerTouchStart y) = { s with _startY := y, _hasMoved := false } ∧
      step s (.touchStart y H) = s ∧ step s (.mouseDown y H) = s) := by
  constructor
  · intro hc y H
    refine ⟨?_, ?_, ?_⟩
    · simp [step, _onTouchStart, _updateDrawerHeight, hi, hc, hd.symm]
    · simp [step, _onMouseDown, _updateDrawerHeight, hi, hc, hd.symm]
    · simp [step, _onDrawerTouchStart, hi, hc]
  · intro ho y H
    refine ⟨?_, ?_, ?_⟩
    · simp [step, _onDrawerTouchStart, hi, ho, hd.symm]
    · simp [step, _onTouchStart, hi, ho]
    · simp [step, _onMouseDown, hi, ho]

/-- C10, witness: in the middle of a handle-zone drag that started at 10, a further
touch press at 40 changes `_startY` and `_drawerHeight` only. -/
theorem second_press_effect_witness :
    (run mounted [.touchStart 10 400, .touchMove 40])._initialized = true ∧
      (run mounted [.touchStart 10 400, .touchMove 40])._dragging = true ∧
      (run mounted [.touchStart 10 400, .touchMove 40])._isOpen = false ∧
      step (run mounted [.touchStart 10 400, .touchMove 40]) (.touchStart 40 380) =
        { run mounted [.touchStart 10 400, .touchMove 40] with
          _startY := 40, _drawerHeight := 380 } :=
  ⟨rfl, rfl, rfl,
    ((second_press_effect (run mounted [.touchStart 10 400, .touchMove 40]) rfl rfl).1
      rfl 40 380).1⟩

/-! ## Position mapping -/

theorem updateDrawerPosition_opening (s : PullDownCard) (position : Int) :
    (_updateDrawerPosition s position false).drawer.styleTransform
        = some (-s._drawerHeight + min s._drawerHeight position) ∧
      (_updateDrawerPosition s position false).overlay.styleOpacity
        = some (jsDiv (min s._drawerHeight position) s._drawerHeight) ∧
      (_updateDrawerPosition s position false).overlay.styleVisibility = "visible" := by
  simp [_updateDrawerPosition]

theorem updateDrawerPosition_closing (s : PullDownCard) (position : Int) :
    (_updateDrawerPosition s position true).drawer.styleTransform
        = some (-(s._drawerHeight - max 0 (min s._drawerHeight position))) ∧
      (_updateDrawerPosition s position true).overlay.styleOpacity
        = some (jsDiv (max 0 (min s._drawerHeight position)) s._drawerHeight) := by
  simp [_updateDrawerPosition]

/-- C11: for every drawer extent `H > 0` and every drag delta `d ≥ 0`, the opening
branch of `_updateDrawerPosition` sets the transform offset to `-H + min(d, H)`, which
lies in `[-H, 0]` and does not decrease when `d` grows, and sets the overlay opacity to
the quotient `min(d, H) / H`, which lies in `[0, 1]`. -/
theorem opening_position_mapping (s : PullDownCard) (H d : Int) (hs : s._drawerHeight = H)
    (hH : 0 < H) (hd : 0 ≤ d) :
    (_updateDrawerPosition s d false).drawer.styleTransform = some (-H + min d H) ∧
      (-H ≤ -H + min d H ∧ -H + min d H ≤ 0) ∧
      (∀ d2 t1 t2 : Int, d ≤ d2 →
        (_updateDrawerPosition s d false).drawer.styleTransform = some t1 →
        (_updateDrawerPosition s d2 false).drawer.styleTransform = some t2 → t1 ≤ t2) ∧
      (_updateDrawerPosition s d false).overlay.styleOpacity
        = some (.fin (((min d H : Int) : ℚ) / (H : ℚ))) ∧
      (0 ≤ ((min d H : Int) : ℚ) / (H : ℚ) ∧ ((min d H : Int) : ℚ) / (H : ℚ) ≤ 1) := by
  obtain ⟨ht, ho, _⟩ := updateDrawerPosition_opening s d
  rw [hs] at ht ho
  have hHq : (0 : ℚ) < (H : ℚ) := by exact_mod_cast hH
  have hmin0 : 0 ≤ min d H := le_min hd (le_of_lt hH)
  have hminH : min d H ≤ H := min_le_right d H
  refine ⟨?_, ⟨?_, ?_⟩, ?_, ?_, ⟨?_, ?_⟩⟩
  · rw [ht, min_comm]
  · omega
  · omega
  · intro d2 t1 t2 hle h1 h2
    obtain ⟨ht2, _, _⟩ := updateDrawerPosition_opening s d2
    rw [hs] at ht2
    rw [ht] at h1
    rw [ht2] at h2
    injection h1 with h1
    injection h2 with h2
    have : min H d ≤ min H d2 := min_le_min le_rfl hle
    omega
  · rw [ho, min_comm]
    unfold jsDiv
    rw [if_neg (ne_of_gt hH)]
  · apply div_nonneg
    · exact_mod_cast hmin0
    · exact le_of_lt hHq
  · rw [div_le_one hHq]
    exact_mod_cast hminH

/-- C11, witness: with a measured extent of 400, a drag of 100px puts the drawer at
offset -300 with the opacity 100/400, and a drag of 500px puts it at offset 0. -/
theorem opening_position_mapping_witness :
    (run mounted [.touchStart 10 400])._drawerHeight = 400 ∧
      (_updateDrawerPosition (run mounted [.touchStart 10 400]) 100 false).drawer.styleTransform
        = some (-400 + min 100 400) ∧
      (_updateDrawerPosition (run mounted [.touchStart 10 400]) 100 false).overlay.styleOpacity
        = some (.fin (((min 100 400 : Int) : ℚ) / ((400 : Int) : ℚ))) ∧
      (_updateDrawerPosition (run mounted [.touchStart 10 400]) 100 false).drawer.styleTransform
        = some (-300) ∧
      (_updateDrawerPosition (run mounted [.touchStart 10 400]) 500 false).drawer.styleTransform
        = some 0 :=
  ⟨rfl,
    (opening_position_mapping (run mounted [.touchStart 10 400]) 400 100 rfl (by decide)
      (by decide)).1,
    (opening_position_mapping (run mounted [.touchStart 10 400]) 400 100 rfl (by decide)
      (by decide)).2.2.2.1,
    by decide, by decide⟩

/-- C12, counterexample: with a measured extent of 0, an opening move of 30px (press at
10, move at 40) stores the opacity `NaN`, not 1; and once such a drawer is OPEN, a
closing move of -50px stores `NaN` as well, not 0. -/
theorem zero_extent_opacity_is_nan :
    (run mounted [.touchStart 10 0, .touchMove 40])._drawerHeight = 0 ∧
      (run mounted [.touchStart 10 0, .touchMove 40]).overlay.styleOpacity = some .nan ∧
      (run mounted [.touchStart 10 0, .touchMove 40]).overlay.styleOpacity ≠ some (.fin 1) ∧
      (run mounted [.touchStart 10 0, .touchMove 80, .touchEnd])._isOpen = true ∧
      (run mounted [.touchStart 10 0, .touchMove 80, .touchEnd, .drawerTouchStart 300,
        .drawerTouchMove 250]).overlay.styleOpacity = some .nan ∧
      (run mounted [.touchStart 10 0, .touchMove 80, .touchEnd, .drawerTouchStart 300,
        .drawerTouchMove 250]).overlay.styleOpacity ≠ some (.fin 0) := by
  refine ⟨rfl, rfl, ?_, rfl, rfl, ?_⟩
  · intro h
    have h1 : (run mounted [.touchStart 10 0, .touchMove 40]).overlay.styleOpacity
        = some .nan := rfl
    rw [h1] at h
    cases h
  · intro h
    have h1 : (run mounted [.touchStart 10 0, .touchMove 80, .touchEnd, .drawerTouchStart 300,
        .drawerTouchMove 250]).overlay.styleOpacity = some .nan := rfl
    rw [h1] at h
    cases h

/-- C12, amended: with a measured extent of 0 the position mapping is defined in both
directions and raises no fault, but it does not force the opacity to 1 or 0: for every
positive opening delta and for every closing position the value it assigns is the
quotient 0/0, `NaN`, and the transform offset is 0. -/
theorem zero_extent_mapping (s : PullDownCard) (hs : s._drawerHeight = 0) :
    (∀ d : Int, 0 < d →
      (_updateDrawerPosition s d false).drawer.styleTransform = some 0 ∧
      (_updateDrawerPosition s d false).overlay.styleOpacity = some .nan) ∧
    (∀ position : Int,
      (_updateDrawerPosition s position true).drawer.styleTransform = some 0 ∧
      (_updateDrawerPosition s position true).overlay.styleOpacity = some .nan) := by
  constructor
  · intro d hd
    obtain ⟨ht, ho, _⟩ := updateDrawerPosition_opening s d
    rw [hs] at ht ho
    have hmin : min 0 d = 0 := min_eq_left (le_of_lt hd)
    rw [hmin] at ht ho
    exact ⟨by rw [ht]; rfl, by rw [ho]; rfl⟩
  · intro position
    obtain ⟨ht, ho⟩ := updateDrawerPosition_closing s position
    rw [hs] at ht ho
    have hmax : max 0 (min 0 position) = 0 := max_eq_left (min_le_left 0 position)
    rw [hmax] at ht ho
    exact ⟨by rw [ht]; rfl, by rw [ho]; rfl⟩

/-- C12, witness: on the mounted widget, after a handle-zone press that measured an
extent of 0, an opening delta of 30 gives offset 0 and opacity `NaN`; and once that
drawer has been dragged OPEN, a closing position of -50 gives offset 0 and opacity
`NaN` as well. -/
theorem zero_extent_mapping_witness :
    ((run mounted [.touchStart 10 0])._initialized = true ∧
      (run mounted [.touchStart 10 0])._drawerHeight = 0) ∧
      ((_updateDrawerPosition (run mounted [.touchStart 10 0]) 30 false).drawer.styleTransform
          = some 0 ∧
        (_updateDrawerPosition (run mounted [.touchStart 10 0]) 30 false).overlay.styleOpacity
          = some .nan) ∧
      ((run mounted [.touchStart 10 0, .touchMove 80, .touchEnd,
          .drawerTouchStart 300])._isOpen = true ∧
        (run mounted [.touchStart 10 0, .touchMove 80, .touchEnd,
          .drawerTouchStart 300])._drawerHeight = 0) ∧
      ((_updateDrawerPosition (run mounted [.touchStart 10 0, .touchMove 80, .touchEnd,
          .drawerTouchStart 300]) (-50) true).drawer.styleTransform = some 0 ∧
        (_updateDrawerPosition (run mounted [.touchStart 10 0, .touchMove 80, .touchEnd,
          .drawerTouchStart 300]) (-50) true).overlay.styleOpacity = some .nan) :=
  ⟨⟨rfl, rfl⟩,
    (zero_extent_mapping (run mounted [.touchStart 10 0]) rfl).1 30 (by decide),
    ⟨rfl, rfl⟩,
    (zero_extent_mapping (run mounted [.touchStart 10 0, .touchMove 80, .touchEnd,
      .drawerTouchStart 300]) rfl).2 (-50)⟩

/-! ## Auto-close on tap -/

/-- The state after a press and a release inside the drawer content while OPEN. -/
theorem run_tap_in_cards (s : PullDownCard) (cfg : Config) (t0 t1 : Int)
    (hi : s._initialized = true) (ho : s._isOpen = true) (hcfg : s._config = some cfg) :
    run s [.pointerDown true t0, .pointerUp true t1] =
      if cfg.auto_close_on_tap = true ∧ t1 - t0 < 300
      then { s with touchStartTime := t0, timers := s.timers ++ [t1 + 200] }
      else { s with touchStartTime := t0 } := by
  simp only [run_cons, run_nil, step, hi, onPointerDown, ho, onPointerUp, autoCloseOnTap, hcfg,
    if_true, Bool.not_true, Bool.false_eq_true, if_false]
  cases ha : cfg.auto_close_on_tap
  · simp
  · by_cases ht : t1 - t0 < 300
    · simp [ht]
    · simp [ht]

/-- The scheduling rule of the two pointer listeners: for every press at time `t0` and
release at time `t1` that both occur inside the drawer content while the drawer is
OPEN, a close is scheduled, due 200 ms after the release, exactly when
`auto_close_on_tap` is enabled and `t1 - t0 < 300`; otherwise the pending timeouts are
as before; the two listeners themselves leave the drawer OPEN, and the scheduled close,
when it runs, closes it. -/
theorem auto_close_on_tap_rule (s : PullDownCard) (cfg : Config) (t0 t1 : Int)
    (hi : s._initialized = true) (ho : s._isOpen = true) (hcfg : s._config = some cfg) :
    ((run s [.pointerDown true t0, .pointerUp true t1]).timers = s.timers ++ [t1 + 200] ↔
        (cfg.auto_close_on_tap = true ∧ t1 - t0 < 300)) ∧
      ((cfg.auto_close_on_tap = false ∨ 300 ≤ t1 - t0) →
        (run s [.pointerDown true t0, .pointerUp true t1]).timers = s.timers) ∧
      (run s [.pointerDown true t0, .pointerUp true t1])._isOpen = true ∧
      ((cfg.auto_close_on_tap = true ∧ t1 - t0 < 300) → s.timers = [] →
        (run s [.pointerDown true t0, .pointerUp true t1, .timer])._isOpen = false ∧
        (run s [.pointerDown true t0, .pointerUp true t1, .timer]).timers = []) := by
  have key := run_tap_in_cards s cfg t0 t1 hi ho hcfg
  refine ⟨?_, ?_, ?_, ?_⟩
  · rw [key]
    constructor
    · intro h
      by_contra hn
      rw [if_neg hn] at h
      have h' : s.timers = s.timers ++ [t1 + 200] := h
      have := congrArg List.length h'
      simp at this
    · intro h
      rw [if_pos h]
  · intro h
    rw [key, if_neg]
    rintro ⟨ha, ht⟩
    rcases h with h | h
    · rw [ha] at h; cases h
    · omega
  · rw [key]
    split_ifs <;> exact ho
  · intro h ht
    have e : run s [.pointerDown true t0, .pointerUp true t1, .timer] =
        step (run s [.pointerDown true t0, .pointerUp true t1]) .timer := rfl
    rw [e, key, if_pos h]
    simp [step, onTimer, ht, _closeDrawer]

/-- Instances of the scheduling rule on the OPEN drawer, pointer events alone: a tap of
150 ms inside the content schedules a close due 200 ms after the release, and the
drawer is CLOSED once it has run; a press of 300 ms schedules nothing; and with
`auto_close_on_tap` set to false the tap of 150 ms schedules nothing. -/
theorem auto_close_on_tap_rule_witness :
    (opened._isOpen = true ∧ opened.timers = []) ∧
      (run opened [.pointerDown true 1000, .pointerUp true 1150]).timers = [1350] ∧
      ((run opened [.pointerDown true 1000, .pointerUp true 1150, .timer])._isOpen = false ∧
        (run opened [.pointerDown true 1000, .pointerUp true 1150, .timer]).timers = []) ∧
      (run opened [.pointerDown true 1000, .pointerUp true 1300]).timers = opened.timers ∧
      ((run (run opened [.setConfig { configA with auto_close_on_tap := some false }])
          [.pointerDown true 1000, .pointerUp true 1150]).timers = [] ∧
        (run (run opened [.setConfig { configA with auto_close_on_tap := some false }])
          [.pointerDown true 1000, .pointerUp true 1150])._isOpen = true) :=
  ⟨⟨rfl, rfl⟩, by decide,
    (auto_close_on_tap_rule opened (storedConfig configA) 1000 1150 rfl rfl rfl).2.2.2
      ⟨rfl, by decide⟩ rfl,
    (auto_close_on_tap_rule opened (storedConfig configA) 1000 1300 rfl rfl rfl).2.1
      (Or.inr (by decide)),
    ⟨(auto_close_on_tap_rule
        (run opened [.setConfig { configA with auto_close_on_tap := some false }])
        (storedConfig { configA with auto_close_on_tap := some false }) 1000 1150
        rfl rfl rfl).2.1 (Or.inl rfl),
      (auto_close_on_tap_rule
        (run opened [.setConfig { configA with auto_close_on_tap := some false }])
        (storedConfig { configA with auto_close_on_tap := some false }) 1000 1150
        rfl rfl rfl).2.2.1⟩⟩

/-- C13, failing input: the drawer is OPEN (opened by a drag from 10 to 80, extent 400)
and a finger taps inside the drawer content at y = 300, so that the press and the
release reach the pointer listeners and, bubbling to the drawer, its touch listeners:
`pointerdown`, `touchstart`, `pointerup`, `touchend`. With `auto_close_on_tap` false and
a tap of 150 ms no close is scheduled, yet the drawer is CLOSED after the release; the
same holds with `auto_close_on_tap` true and a press of 400 ms. The drawer-body release
compares the stale `_currentY` of 80 with the new origin 300. With the pointer events
alone, as for a mouse click, the drawer stays OPEN. -/
theorem touch_tap_in_cards_closes :
    ((run opened [.setConfig { configA with auto_close_on_tap := some false }])._isOpen = true ∧
      autoCloseOnTap (run opened [.setConfig { configA with auto_close_on_tap := some false }])
        = false) ∧
      ((run opened [.setConfig { configA with auto_close_on_tap := some false },
          .pointerDown true 1000, .drawerTouchStart 300, .pointerUp true 1150]).timers = [] ∧
        (run opened [.setConfig { configA with auto_close_on_tap := some false },
          .pointerDown true 1000, .drawerTouchStart 300, .pointerUp true 1150])._isOpen
            = true ∧
        (run opened [.setConfig { configA with auto_close_on_tap := some false },
          .pointerDown true 1000, .drawerTouchStart 300, .pointerUp true 1150,
          .drawerTouchEnd]).timers = [] ∧
        (run opened [.setConfig { configA with auto_close_on_tap := some false },
          .pointerDown true 1000, .drawerTouchStart 300, .pointerUp true 1150,
          .drawerTouchEnd])._isOpen = false) ∧
      (autoCloseOnTap opened = true ∧
        (run opened [.pointerDown true 1000, .drawerTouchStart 300, .pointerUp true 1400,
          .drawerTouchEnd]).timers = [] ∧
        (run opened [.pointerDown true 1000, .drawerTouchStart 300, .pointerUp true 1400,
          .drawerTouchEnd])._isOpen = false) ∧
      (run opened [.setConfig { configA with auto_close_on_tap := some false },
        .pointerDown true 1000, .pointerUp true 1150])._isOpen = true := by
  decide

/-! ## Commit and the live drag overrides -/

/-- What a handle-zone touch release that commits CLOSED leaves behind, for every
threshold and every last move at `0 < d ≤ threshold`: the drag flag, both `dragging`
classes, the inline transform and the inline opacity are cleared, the inline
visibility is not. -/
theorem failed_open_release (s : PullDownCard) (cfg : Config) (y0 d : Int)
    (h : OpeningDrag cfg y0 s) (hd : 0 < d) (ht : d ≤ cfg.swipe_threshold) :
    (run s [.touchMove (y0 + d), .touchEnd])._isOpen = false ∧
      (run s [.touchMove (y0 + d), .touchEnd])._dragging = false ∧
      (run s [.touchMove (y0 + d), .touchEnd]).drawer.classDragging = false ∧
      (run s [.touchMove (y0 + d), .touchEnd]).drawer.styleTransform = none ∧
      (run s [.touchMove (y0 + d), .touchEnd]).overlay.classDragging = false ∧
      (run s [.touchMove (y0 + d), .touchEnd]).overlay.styleOpacity = none ∧
      (run s [.touchMove (y0 + d), .touchEnd]).overlay.styleVisibility = "visible" := by
  obtain ⟨hi, hc, hdr, hs, hcfg⟩ := h
  have h1 : step s (.touchMove (y0 + d)) = _updateDrawerPosition s d false := by
    simp [step, _onTouchMove, hi, hc, hdr, hs, hd]
  rw [run_cons, run_cons, run_nil, h1]
  simp only [step, _updateDrawerPosition, _onTouchEnd, hi, hdr, hs, swipeThreshold, hcfg,
    _openDrawer, _closeDrawer, _resetDragging]
  have e : y0 + d - y0 = d := by omega
  have hn : ¬ d > cfg.swipe_threshold := by omega
  simp [e, hn]

/-- C14, failing input: default threshold 50, drawer CLOSED; a handle-zone drag of 30px
(press at 10, move at 40) is released and commits CLOSED. The drag flag, both
`dragging` classes, the inline transform and the inline opacity are cleared, but the
overlay's inline visibility is still `visible`, so the overlay is not as it was in the
initial CLOSED state; by touch and by mouse alike. A release that commits OPEN does
clear it. -/
theorem commit_closed_keeps_inline_visibility :
    (mounted.overlay = {} ∧ mounted.overlay.styleVisibility = "") ∧
      ((run mounted [.touchStart 10 400, .touchMove 40, .touchEnd])._isOpen = false ∧
        (run mounted [.touchStart 10 400, .touchMove 40, .touchEnd])._dragging = false ∧
        (run mounted [.touchStart 10 400, .touchMove 40, .touchEnd]).drawer = {} ∧
        (run mounted [.touchStart 10 400, .touchMove 40, .touchEnd]).overlay.styleOpacity
          = none ∧
        (run mounted [.touchStart 10 400, .touchMove 40, .touchEnd]).overlay.classDragging
          = false ∧
        (run mounted [.touchStart 10 400, .touchMove 40, .touchEnd]).overlay.styleVisibility
          = "visible" ∧
        (run mounted [.touchStart 10 400, .touchMove 40, .touchEnd]).overlay
          ≠ mounted.overlay) ∧
      ((run mounted [.mouseDown 10 400, .mouseMove 40, .mouseUp 40])._isOpen = false ∧
        (run mounted [.mouseDown 10 400, .mouseMove 40, .mouseUp 40]).overlay.styleVisibility
          = "visible") ∧
      (run mounted [.touchStart 10 400, .touchMove 80, .touchEnd]).overlay.styleVisibility
        = "" := by
  decide

end PullDownCard
